import Mathlib

/-!
# SevSeg: a multiplexed four-digit seven-segment display driver

Shallow embedding of `src/SevSeg/SevSeg.cpp`.

The driver talks to the board through three Arduino primitives, `pinMode`,
`digitalWrite` and `delayMicroseconds`.  A member function is embedded as the
list of primitive calls it performs, in program order; the electrical state of
the board after any part of that list is obtained by replaying the calls with
`Board.run`.  Bytes are natural numbers below 256, `int` is the 16 bit integer
of the AVR boards the library is written for.
-/

/-! ## The board -/

/-- Logic level of a digital pin, the Arduino constants `HIGH` and `LOW`. -/
inductive Level
  | LOW
  | HIGH
  deriving DecidableEq

/-- Direction of a digital pin, the Arduino constants `INPUT` and `OUTPUT`. -/
inductive PinMode
  | INPUT
  | OUTPUT
  deriving DecidableEq

/-- One call of an Arduino primitive, with its arguments. -/
inductive Event
  | pinMode (pin : Nat) (m : PinMode)
  | digitalWrite (pin : Nat) (v : Level)
  | delayMicroseconds (us : Nat)
  deriving DecidableEq

/-- Electrical state of the board: the level latched on every pin and the
direction every pin is configured in. -/
structure Board where
  level : Nat → Level
  mode : Nat → PinMode

/-- Effect of one primitive call on the board. A delay changes nothing. -/
def Board.step (b : Board) : Event → Board
  | Event.pinMode pin m => { b with mode := fun p => if p = pin then m else b.mode p }
  | Event.digitalWrite pin v => { b with level := fun p => if p = pin then v else b.level p }
  | Event.delayMicroseconds _ => b

/-- Board after a sequence of primitive calls. -/
def Board.run (b : Board) (es : List Event) : Board :=
  es.foldl Board.step b

/-- Boards seen during the blocking delays of a call sequence, in program
order: the state the display is held in while a `delayMicroseconds` runs. -/
def dwells (b : Board) : List Event → List Board
  | [] => []
  | Event.delayMicroseconds _ :: es => b :: dwells b es
  | e :: es => dwells (b.step e) es

/-! ## Constants of the header -/

/-- Modelled from the spec: the macro `COMMON_ANODE` of the header `SevSeg.h`,
which is not among the sources. Spec §3 names the polarity modes; the comments
at lines 32-33 and 84 of `SevSeg.cpp` give `1 for common anode`. -/
def COMMON_ANODE : Bool := true

/-- Modelled from the spec: the macro `COMMON_CATHODE` of the header `SevSeg.h`,
which is not among the sources. Spec §3 names the polarity modes; the comments
at lines 32-33 and 84 of `SevSeg.cpp` give `0 for common cathode`. -/
def COMMON_CATHODE : Bool := false

/-- Values of the pseudo-digit macros `BLANK`, `DASH` and `DP` of the header
`SevSeg.h`. The header is not among the sources, so the three values are
parameters of the embedding. -/
structure Symbols where
  BLANK : Nat
  DASH : Nat
  DP : Nat
  deriving DecidableEq

/-- Modelled from the spec: what the absent header must satisfy for
`lightNumber` to compile and to tell the thirteen things to display of spec §3
and §4.3 apart. The three macros are byte values, none of them is a decimal
digit `0..9`, and they are pairwise different (they are `case` labels of one
`switch`). -/
def Symbols.Valid (s : Symbols) : Prop :=
  (10 ≤ s.BLANK ∧ s.BLANK < 256) ∧ (10 ≤ s.DASH ∧ s.DASH < 256) ∧
    (10 ≤ s.DP ∧ s.DP < 256) ∧ s.BLANK ≠ s.DASH ∧ s.BLANK ≠ s.DP ∧ s.DASH ≠ s.DP

instance (s : Symbols) : Decidable s.Valid := by
  unfold Symbols.Valid
  infer_instance

/-! ## The driver object -/

/-- Member variables of the class `SevSeg` that the member functions read.
The member `DecPlace` set by the constructor is shadowed by the parameter of
`DisplayNumber` and never read, it is left out. -/
structure SevSeg where
  numberOfDigits : Nat
  digit1 : Nat
  digit2 : Nat
  digit3 : Nat
  digit4 : Nat
  segmentA : Nat
  segmentB : Nat
  segmentC : Nat
  segmentD : Nat
  segmentE : Nat
  segmentF : Nat
  segmentG : Nat
  segmentDP : Nat
  mode : Bool
  DigitOn : Level
  DigitOff : Level
  SegOn : Level
  SegOff : Level
  DigitPins : List Nat
  SegmentPins : List Nat
  deriving DecidableEq

/-- Member variables after the assignments of `SevSeg::Begin`, lines 69-110. -/
def SevSeg.Begin.object (mode_in : Bool)
    (numOfDigits dig1 dig2 dig3 dig4 segA segB segC segD segE segF segG segDP : Nat) : SevSeg :=
  { numberOfDigits := numOfDigits
    digit1 := dig1
    digit2 := dig2
    digit3 := dig3
    digit4 := dig4
    segmentA := segA
    segmentB := segB
    segmentC := segC
    segmentD := segD
    segmentE := segE
    segmentF := segF
    segmentG := segG
    segmentDP := segDP
    mode := mode_in
    DigitOn := if mode_in = COMMON_ANODE then Level.HIGH else Level.LOW
    DigitOff := if mode_in = COMMON_ANODE then Level.LOW else Level.HIGH
    SegOn := if mode_in = COMMON_ANODE then Level.LOW else Level.HIGH
    SegOff := if mode_in = COMMON_ANODE then Level.HIGH else Level.LOW
    DigitPins := [dig1, dig2, dig3, dig4]
    SegmentPins := [segA, segB, segC, segD, segE, segF, segG, segDP] }

/-- Primitive calls of `SevSeg::Begin`, lines 113-129: four loops over the
arrays `DigitPins` and `SegmentPins`. Reading an array past its last assigned
element has no defined result, the function then yields `none`. -/
def SevSeg.Begin.calls (self : SevSeg) : Option (List Event) := do
  let m1 ← (List.range self.numberOfDigits).mapM
    (fun digit => (self.DigitPins[digit]?).map (fun pin => Event.pinMode pin PinMode.OUTPUT))
  let m2 ← (List.range 8).mapM
    (fun seg => (self.SegmentPins[seg]?).map (fun pin => Event.pinMode pin PinMode.OUTPUT))
  let w1 ← (List.range self.numberOfDigits).mapM
    (fun digit => (self.DigitPins[digit]?).map (fun pin => Event.digitalWrite pin self.DigitOff))
  let w2 ← (List.range 8).mapM
    (fun seg => (self.SegmentPins[seg]?).map (fun pin => Event.digitalWrite pin self.SegOff))
  pure (m1 ++ m2 ++ w1 ++ w2)

/-- `SevSeg::Begin`: the configured object and the primitive calls made. -/
def SevSeg.Begin (mode_in : Bool)
    (numOfDigits dig1 dig2 dig3 dig4 segA segB segC segD segE segF segG segDP : Nat) :
    Option (SevSeg × List Event) :=
  let self := SevSeg.Begin.object mode_in numOfDigits dig1 dig2 dig3 dig4
    segA segB segC segD segE segF segG segDP
  (SevSeg.Begin.calls self).map (fun es => (self, es))

/-! ## Lighting one symbol -/

/-- `SevSeg::lightNumber`, lines 202-331: the `switch` over the thing to
display. The ten digit labels are literals, the three labels `BLANK`, `DASH`
and `DP` are macros of the header. A value without a `case` writes nothing. -/
def SevSeg.lightNumber (self : SevSeg) (s : Symbols) : Nat → List Event
  | 0 =>
    [Event.digitalWrite self.segmentA self.SegOn,
     Event.digitalWrite self.segmentB self.SegOn,
     Event.digitalWrite self.segmentC self.SegOn,
     Event.digitalWrite self.segmentD self.SegOn,
     Event.digitalWrite self.segmentE self.SegOn,
     Event.digitalWrite self.segmentF self.SegOn]
  | 1 =>
    [Event.digitalWrite self.segmentB self.SegOn,
     Event.digitalWrite self.segmentC self.SegOn]
  | 2 =>
    [Event.digitalWrite self.segmentA self.SegOn,
     Event.digitalWrite self.segmentB self.SegOn,
     Event.digitalWrite self.segmentD self.SegOn,
     Event.digitalWrite self.segmentE self.SegOn,
     Event.digitalWrite self.segmentG self.SegOn]
  | 3 =>
    [Event.digitalWrite self.segmentA self.SegOn,
     Event.digitalWrite self.segmentB self.SegOn,
     Event.digitalWrite self.segmentC self.SegOn,
     Event.digitalWrite self.segmentD self.SegOn,
     Event.digitalWrite self.segmentG self.SegOn]
  | 4 =>
    [Event.digitalWrite self.segmentB self.SegOn,
     Event.digitalWrite self.segmentC self.SegOn,
     Event.digitalWrite self.segmentF self.SegOn,
     Event.digitalWrite self.segmentG self.SegOn]
  | 5 =>
    [Event.digitalWrite self.segmentA self.SegOn,
     Event.digitalWrite self.segmentC self.SegOn,
     Event.digitalWrite self.segmentD self.SegOn,
     Event.digitalWrite self.segmentF self.SegOn,
     Event.digitalWrite self.segmentG self.SegOn]
  | 6 =>
    [Event.digitalWrite self.segmentA self.SegOn,
     Event.digitalWrite self.segmentC self.SegOn,
     Event.digitalWrite self.segmentD self.SegOn,
     Event.digitalWrite self.segmentE self.SegOn,
     Event.digitalWrite self.segmentF self.SegOn,
     Event.digitalWrite self.segmentG self.SegOn]
  | 7 =>
    [Event.digitalWrite self.segmentA self.SegOn,
     Event.digitalWrite self.segmentB self.SegOn,
     Event.digitalWrite self.segmentC self.SegOn]
  | 8 =>
    [Event.digitalWrite self.segmentA self.SegOn,
     Event.digitalWrite self.segmentB self.SegOn,
     Event.digitalWrite self.segmentC self.SegOn,
     Event.digitalWrite self.segmentD self.SegOn,
     Event.digitalWrite self.segmentE self.SegOn,
     Event.digitalWrite self.segmentF self.SegOn,
     Event.digitalWrite self.segmentG self.SegOn]
  | 9 =>
    [Event.digitalWrite self.segmentA self.SegOn,
     Event.digitalWrite self.segmentB self.SegOn,
     Event.digitalWrite self.segmentC self.SegOn,
     Event.digitalWrite self.segmentD self.SegOn,
     Event.digitalWrite self.segmentF self.SegOn,
     Event.digitalWrite self.segmentG self.SegOn]
  | numberToDisplay =>
    if numberToDisplay = s.BLANK then
      [Event.digitalWrite self.segmentA self.SegOff,
       Event.digitalWrite self.segmentB self.SegOff,
       Event.digitalWrite self.segmentC self.SegOff,
       Event.digitalWrite self.segmentD self.SegOff,
       Event.digitalWrite self.segmentE self.SegOff,
       Event.digitalWrite self.segmentF self.SegOff,
       Event.digitalWrite self.segmentG self.SegOff,
       Event.digitalWrite self.segmentDP self.SegOff]
    else if numberToDisplay = s.DASH then
      [Event.digitalWrite self.segmentG self.SegOn]
    else if numberToDisplay = s.DP then
      [Event.digitalWrite self.segmentDP self.SegOn]
    else
      []

/-! ## Refreshing the display -/

/-- Value of a 16 bit `int` after an arithmetic result wraps around. -/
def wrapInt (x : Int) : Int :=
  (x + 32768) % 65536 - 32768

/-- Conversion of an `int` argument to the `byte` parameter of `lightNumber`. -/
def toByte (x : Int) : Nat :=
  (x % 256).toNat

/-- The `switch(digit)` of `SevSeg::DisplayNumber`, lines 152-168: turn on the
digit-select line of the position `digit`. Only the positions 1 to 4 have a
`case`. -/
def SevSeg.DisplayNumber.select (self : SevSeg) (digit : Nat) : List Event :=
  match digit with
  | 1 => [Event.digitalWrite self.digit1 self.DigitOn]
  | 2 => [Event.digitalWrite self.digit2 self.DigitOn]
  | 3 => [Event.digitalWrite self.digit3 self.DigitOn]
  | 4 => [Event.digitalWrite self.digit4 self.DigitOn]
  | _ => []

/-- Lines 170-175 of `SevSeg::DisplayNumber`: draw the lowest digit of what is
left of the number, or the sign, or nothing. Returns the primitive calls and
the new value of `negative`. -/
def SevSeg.DisplayNumber.number (self : SevSeg) (s : Symbols) (toDisplay : Int)
    (negative : Bool) : List Event × Bool :=
  if toDisplay > 0 then (self.lightNumber s (toByte (toDisplay.tmod 10)), negative)
  else if negative = true then (self.lightNumber s (toByte s.DASH), false)
  else ([], negative)

/-- Lines 177-179 of `SevSeg::DisplayNumber`: service the decimal point. -/
def SevSeg.DisplayNumber.point (self : SevSeg) (s : Symbols) (DecPlace digit : Nat) :
    List Event :=
  if DecPlace = digit then self.lightNumber s (toByte s.DP) else []

/-- Lines 186-193 of `SevSeg::DisplayNumber`: turn off all segments, then all
digits. -/
def SevSeg.DisplayNumber.turnOff (self : SevSeg) (s : Symbols) : List Event :=
  self.lightNumber s (toByte s.BLANK) ++
    [Event.digitalWrite self.digit1 self.DigitOff,
     Event.digitalWrite self.digit2 self.DigitOff,
     Event.digitalWrite self.digit3 self.DigitOff,
     Event.digitalWrite self.digit4 self.DigitOff]

/-- The calls of a pass of the loop before its delay, lines 152-179: select the
position, draw the number, service the decimal point. -/
def SevSeg.DisplayNumber.draw (self : SevSeg) (s : Symbols) (DecPlace digit : Nat)
    (toDisplay : Int) (negative : Bool) : List Event :=
  SevSeg.DisplayNumber.select self digit
    ++ (SevSeg.DisplayNumber.number self s toDisplay negative).1
    ++ SevSeg.DisplayNumber.point self s DecPlace digit

/-- One pass through the body of the `for` loop of `SevSeg::DisplayNumber`,
lines 150-193, for the position `digit`: the primitive calls made, and the
values of `toDisplay` and `negative` the pass leaves behind. -/
def SevSeg.DisplayNumber.body (self : SevSeg) (s : Symbols) (DecPlace : Nat)
    (digit : Nat) (toDisplay : Int) (negative : Bool) : List Event × Int × Bool :=
  let number := SevSeg.DisplayNumber.number self s toDisplay negative
  (SevSeg.DisplayNumber.select self digit ++ number.1
      ++ SevSeg.DisplayNumber.point self s DecPlace digit
      ++ [Event.delayMicroseconds 2000]
      ++ SevSeg.DisplayNumber.turnOff self s,
    toDisplay.tdiv 10, number.2)

/-- The `for` loop of `SevSeg::DisplayNumber`, line 149: `digit` counts down to
1, the result lists the primitive calls of each pass. -/
def SevSeg.DisplayNumber.loop (self : SevSeg) (s : Symbols) (DecPlace : Nat) :
    Nat → Int → Bool → List (List Event)
  | 0, _, _ => []
  | digit + 1, toDisplay, negative =>
    let pass := SevSeg.DisplayNumber.body self s DecPlace (digit + 1) toDisplay negative
    pass.1 :: SevSeg.DisplayNumber.loop self s DecPlace digit pass.2.1 pass.2.2

/-- Lines 141-146 of `SevSeg::DisplayNumber`: the values of `toDisplay` and
`negative` the loop starts with. A negative number sets the flag and is made
positive. -/
def SevSeg.DisplayNumber.start (toDisplay : Int) : Int × Bool :=
  if toDisplay < 0 then (wrapInt (toDisplay * -1), true) else (toDisplay, false)

/-- Primitive calls of `SevSeg::DisplayNumber`, lines 137-196, one list per pass
of the loop. -/
def SevSeg.DisplayNumber.passes (self : SevSeg) (s : Symbols) (toDisplay : Int)
    (DecPlace : Nat) : List (List Event) :=
  let start := SevSeg.DisplayNumber.start toDisplay
  SevSeg.DisplayNumber.loop self s DecPlace self.numberOfDigits start.1 start.2

/-- `SevSeg::DisplayNumber`: all primitive calls of one refresh, in order. -/
def SevSeg.DisplayNumber (self : SevSeg) (s : Symbols) (toDisplay : Int)
    (DecPlace : Nat) : List Event :=
  (SevSeg.DisplayNumber.passes self s toDisplay DecPlace).flatten

/-! ## Reading the display -/

/-- Segment pins in the order A, B, C, D, E, F, G. -/
def SevSeg.glyphPins (self : SevSeg) : List Nat :=
  [self.segmentA, self.segmentB, self.segmentC, self.segmentD, self.segmentE,
   self.segmentF, self.segmentG]

/-- The four digit-select pins, left to right. -/
def SevSeg.digitLines (self : SevSeg) : List Nat :=
  [self.digit1, self.digit2, self.digit3, self.digit4]

/-- All twelve pins of the display. -/
def SevSeg.pins (self : SevSeg) : List Nat :=
  self.digitLines ++ self.glyphPins ++ [self.segmentDP]

/-- Which of the segments A..G are energized (at `SegOn`), in that order. -/
def SevSeg.segments (self : SevSeg) (b : Board) : List Bool :=
  self.glyphPins.map (fun pin => decide (b.level pin = self.SegOn))

/-- Whether the decimal-point segment is energized. -/
def SevSeg.point (self : SevSeg) (b : Board) : Bool :=
  decide (b.level self.segmentDP = self.SegOn)

/-- Which of the digit-select lines `digit1..digit4` are on (at `DigitOn`). -/
def SevSeg.selected (self : SevSeg) (b : Board) : List Bool :=
  self.digitLines.map (fun pin => decide (b.level pin = self.DigitOn))

/-- All four digit-select lines are at `DigitOff`. -/
def SevSeg.LinesOff (self : SevSeg) (b : Board) : Prop :=
  ∀ pin ∈ self.digitLines, b.level pin = self.DigitOff

instance (self : SevSeg) (b : Board) : Decidable (self.LinesOff b) := by
  unfold SevSeg.LinesOff
  infer_instance

/-- The blank state: all eight segment lines are at `SegOff`. -/
def SevSeg.Blank (self : SevSeg) (b : Board) : Prop :=
  ∀ pin ∈ self.glyphPins ++ [self.segmentDP], b.level pin = self.SegOff

instance (self : SevSeg) (b : Board) : Decidable (self.Blank b) := by
  unfold SevSeg.Blank
  infer_instance

/-- The display is turned off: all four digit-select lines are at `DigitOff`
and all eight segment lines are at `SegOff`. -/
def SevSeg.Off (self : SevSeg) (b : Board) : Prop :=
  self.LinesOff b ∧ self.Blank b

instance (self : SevSeg) (b : Board) : Decidable (self.Off b) := by
  unfold SevSeg.Off
  infer_instance

/-- What one refresh shows, position by position from the left: the board
during the dwell of each position. The loop runs right to left, so the dwells
are read in reverse. -/
def SevSeg.frame (self : SevSeg) (s : Symbols) (toDisplay : Int) (DecPlace : Nat)
    (b : Board) : List Board :=
  (dwells b (self.DisplayNumber s toDisplay DecPlace)).reverse

/-- A display as `Begin` sets it up: the object is the one `Begin` returns for
its own mode, digit count and pins, and the twelve pins are pairwise distinct
(the pin assignment invariant of spec §3). -/
def SevSeg.Configured (self : SevSeg) : Prop :=
  (SevSeg.Begin self.mode self.numberOfDigits self.digit1 self.digit2 self.digit3
      self.digit4 self.segmentA self.segmentB self.segmentC self.segmentD self.segmentE
      self.segmentF self.segmentG self.segmentDP).map Prod.fst = some self ∧
    self.pins.Nodup

instance (self : SevSeg) : Decidable self.Configured := by
  unfold SevSeg.Configured
  infer_instance

/-- Segments A..G of the seven-segment shape of a decimal digit, in the order
A, B, C, D, E, F, G. -/
def glyph : Nat → List Bool
  | 0 => [true, true, true, true, true, true, false]
  | 1 => [false, true, true, false, false, false, false]
  | 2 => [true, true, false, true, true, false, true]
  | 3 => [true, true, true, true, false, false, true]
  | 4 => [false, true, true, false, false, true, true]
  | 5 => [true, false, true, true, false, true, true]
  | 6 => [true, false, true, true, true, true, true]
  | 7 => [true, true, true, false, false, false, false]
  | 8 => [true, true, true, true, true, true, true]
  | 9 => [true, true, true, true, false, true, true]
  | _ => [false, false, false, false, false, false, false]

/-- The dash: segment G only. -/
def dashGlyph : List Bool :=
  [false, false, false, false, false, false, true]

/-- The blank: no segment. -/
def blankGlyph : List Bool :=
  [false, false, false, false, false, false, false]

/-- The decimal digit a pattern of the segments A..G stands for, if any. -/
def readDigit (pattern : List Bool) : Option Nat :=
  (List.range 10).find? (fun d => decide (glyph d = pattern))

/-- Digits read off a row of patterns from left to right; positions that show
no digit (blank, dash) are dropped. -/
def readDigits (patterns : List (List Bool)) : List Nat :=
  patterns.filterMap readDigit

/-- Pattern of the segments A..G that a pass of the loop of `DisplayNumber`
draws, lines 170-175, as a function of the loop variables. -/
def shown (toDisplay : Int) (negative : Bool) : List Bool :=
  if toDisplay > 0 then glyph (toByte (toDisplay.tmod 10))
  else if negative = true then dashGlyph
  else blankGlyph

/-- Values of `digit`, `toDisplay` and `negative` at the start of each pass of
the loop of `DisplayNumber`, in program order (right to left): `digit` counts
down, `toDisplay` loses its lowest digit (line 181), `negative` is cleared by
the pass that draws the sign (line 174). -/
def loopVars : Nat → Int → Bool → List (Nat × Int × Bool)
  | 0, _, _ => []
  | digit + 1, toDisplay, negative =>
    (digit + 1, toDisplay, negative) ::
      loopVars digit (toDisplay.tdiv 10) (if toDisplay > 0 then negative else false)

/-- A write to one of the eight segment pins. -/
def SevSeg.SegmentWrite (self : SevSeg) : Event → Prop
  | Event.digitalWrite pin _ => pin ∈ self.glyphPins ++ [self.segmentDP]
  | _ => False

/-- A primitive call that cannot turn a digit-select line on: it is no write to
one of `digit1..digit4`, or it writes `DigitOff`. -/
def SevSeg.Harmless (self : SevSeg) : Event → Prop
  | Event.digitalWrite pin v => pin ∉ self.digitLines ∨ v = self.DigitOff
  | _ => True

/-- Number of digit-select lines that are on. -/
def SevSeg.linesOn (self : SevSeg) (b : Board) : Nat :=
  (self.selected b).count true

/-! ## Further readings of the program -/

/-- The logical inverse of a level. -/
def Level.inverse : Level → Level
  | Level.LOW => Level.HIGH
  | Level.HIGH => Level.LOW

/-- Durations, in microseconds, of the blocking delays of a call sequence, in
program order. -/
def delays : List Event → List Nat
  | [] => []
  | Event.delayMicroseconds us :: es => us :: delays es
  | _ :: es => delays es

/-- `lightNumber` has a `case` for the symbol: a digit 0..9, `BLANK`, `DASH` or
`DP`. -/
def Symbols.HasCase (s : Symbols) (k : Nat) : Prop :=
  k < 10 ∨ k = s.BLANK ∨ k = s.DASH ∨ k = s.DP

instance (s : Symbols) (k : Nat) : Decidable (s.HasCase k) := by
  unfold Symbols.HasCase
  infer_instance

/-- Arguments of the calls of `lightNumber` that a pass of the loop of
`DisplayNumber` makes before its delay, in program order: the digit or the
sign (lines 170-175), then the decimal point (lines 178-179). -/
def SevSeg.DisplayNumber.drawn (s : Symbols) (DecPlace digit : Nat) (toDisplay : Int)
    (negative : Bool) : List Nat :=
  (if toDisplay > 0 then [toByte (toDisplay.tmod 10)]
    else if negative = true then [toByte s.DASH]
    else [])
    ++ (if DecPlace = digit then [toByte s.DP] else [])

/-- Arguments of all calls of `lightNumber` that one `DisplayNumber` makes, in
program order: for every pass the calls before the delay and the call
`lightNumber(BLANK)` of line 187. -/
def SevSeg.DisplayNumber.lightNumberCalls (self : SevSeg) (s : Symbols) (toDisplay : Int)
    (DecPlace : Nat) : List Nat :=
  ((loopVars self.numberOfDigits (SevSeg.DisplayNumber.start toDisplay).1
    (SevSeg.DisplayNumber.start toDisplay).2).map
      (fun x => SevSeg.DisplayNumber.drawn s DecPlace x.1 x.2.1 x.2.2 ++ [toByte s.BLANK])).flatten

/-! ## A wired-up example

The wiring used to evaluate the driver on concrete inputs: a common cathode
display on the pins 2-13, refreshed right after `Begin`. -/

/-- Some values for the three pseudo-digit macros. -/
def exampleSymbols : Symbols :=
  { BLANK := 10, DASH := 11, DP := 12 }

/-- The object after `Begin(COMMON_CATHODE, 4, 2, 3, 4, 5, 6, ..., 13)`. -/
def exampleDisplay : SevSeg :=
  SevSeg.Begin.object COMMON_CATHODE 4 2 3 4 5 6 7 8 9 10 11 12 13

/-- A board in its power-on state: every pin an input at `LOW`. -/
def powerOn : Board :=
  { level := fun _ => Level.LOW, mode := fun _ => PinMode.INPUT }

/-- The board after `Begin(COMMON_CATHODE, 4, 2, 3, 4, 5, 6, ..., 13)`. -/
def exampleBoard : Board :=
  powerOn.run (((SevSeg.Begin COMMON_CATHODE 4 2 3 4 5 6 7 8 9 10 11 12 13).map Prod.snd).getD [])

/-- The same wiring for a common anode display. -/
def exampleAnodeDisplay : SevSeg :=
  SevSeg.Begin.object COMMON_ANODE 4 2 3 4 5 6 7 8 9 10 11 12 13

/-- The board after `Begin(COMMON_ANODE, 4, 2, 3, 4, 5, 6, ..., 13)`. -/
def exampleAnodeBoard : Board :=
  powerOn.run (((SevSeg.Begin COMMON_ANODE 4 2 3 4 5 6 7 8 9 10 11 12 13).map Prod.snd).getD [])

/-! ## Replaying primitive calls -/

@[simp]
theorem Board.run_nil (b : Board) : b.run [] = b := rfl

@[simp]
theorem Board.run_cons (b : Board) (e : Event) (es : List Event) :
    b.run (e :: es) = (b.step e).run es := rfl

theorem Board.run_append (b : Board) (es fs : List Event) :
    b.run (es ++ fs) = (b.run es).run fs := by
  simp [Board.run, List.foldl_append]

@[simp]
theorem Board.step_write_level (b : Board) (p q : Nat) (v : Level) :
    (b.step (Event.digitalWrite p v)).level q = if q = p then v else b.level q := rfl

@[simp]
theorem Board.step_write_mode (b : Board) (p : Nat) (v : Level) :
    (b.step (Event.digitalWrite p v)).mode = b.mode := rfl

@[simp]
theorem Board.step_pinMode_level (b : Board) (p : Nat) (m : PinMode) :
    (b.step (Event.pinMode p m)).level = b.level := rfl

@[simp]
theorem Board.step_pinMode_mode (b : Board) (p q : Nat) (m : PinMode) :
    (b.step (Event.pinMode p m)).mode q = if q = p then m else b.mode q := rfl

@[simp]
theorem Board.step_delay (b : Board) (us : Nat) :
    b.step (Event.delayMicroseconds us) = b := rfl

/-- A pin that no call of the sequence writes keeps its level. -/
theorem Board.level_run_of_untouched (q : Nat) (es : List Event) (b : Board)
    (h : ∀ e ∈ es, ∀ v, e ≠ Event.digitalWrite q v) : (b.run es).level q = b.level q := by
  induction es generalizing b with
  | nil => rfl
  | cons e es ih =>
    rw [Board.run_cons, ih _ (fun e' he' => h e' (List.mem_cons_of_mem _ he'))]
    cases e with
    | pinMode p m => rfl
    | delayMicroseconds us => rfl
    | digitalWrite p v =>
      have hne : q ≠ p := by
        intro hqp
        exact h _ (List.mem_cons_self _ _) v (by rw [hqp])
      simp [hne]

/-- A call sequence without a delay has no dwell. -/
theorem dwells_append_of_quiet (es rest : List Event) (b : Board)
    (h : ∀ e ∈ es, ∀ us, e ≠ Event.delayMicroseconds us) :
    dwells b (es ++ rest) = dwells (b.run es) rest := by
  induction es generalizing b with
  | nil => rfl
  | cons e es ih =>
    have ih2 := ih (b.step e) (fun e' he' => h e' (List.mem_cons_of_mem _ he'))
    cases e with
    | pinMode p m => simpa [dwells] using ih2
    | digitalWrite p v => simpa [dwells] using ih2
    | delayMicroseconds us => exact absurd rfl (h _ (List.mem_cons_self _ _) us)

theorem dwells_of_quiet (es : List Event) (b : Board)
    (h : ∀ e ∈ es, ∀ us, e ≠ Event.delayMicroseconds us) : dwells b es = [] := by
  have := dwells_append_of_quiet es [] b h
  simpa [dwells] using this

theorem dwells_append (es fs : List Event) (b : Board) :
    dwells b (es ++ fs) = dwells b es ++ dwells (b.run es) fs := by
  induction es generalizing b with
  | nil => rfl
  | cons e es ih =>
    cases e with
    | pinMode p m => simpa [dwells] using ih _
    | digitalWrite p v => simpa [dwells] using ih _
    | delayMicroseconds us => simpa [dwells] using ih _

/-! ## What `lightNumber` writes -/

theorem toByte_natCast (n : Nat) (h : n < 256) : toByte (n : Int) = n := by
  unfold toByte
  omega

theorem toByte_tmod_lt (t : Int) (h : 0 < t) : toByte (t.tmod 10) < 10 := by
  unfold toByte
  rw [Int.tmod_eq_emod (by omega) (by omega)]
  omega

/-- Beyond the digit labels the `switch` of `lightNumber` compares with the
three macros. -/
theorem SevSeg.lightNumber_of_ge (self : SevSeg) (s : Symbols) (k : Nat) (hk : 10 ≤ k) :
    self.lightNumber s k =
      if k = s.BLANK then
        [Event.digitalWrite self.segmentA self.SegOff,
         Event.digitalWrite self.segmentB self.SegOff,
         Event.digitalWrite self.segmentC self.SegOff,
         Event.digitalWrite self.segmentD self.SegOff,
         Event.digitalWrite self.segmentE self.SegOff,
         Event.digitalWrite self.segmentF self.SegOff,
         Event.digitalWrite self.segmentG self.SegOff,
         Event.digitalWrite self.segmentDP self.SegOff]
      else if k = s.DASH then [Event.digitalWrite self.segmentG self.SegOn]
      else if k = s.DP then [Event.digitalWrite self.segmentDP self.SegOn]
      else [] := by
  obtain ⟨m, rfl⟩ := Nat.exists_eq_add_of_le hk
  rw [Nat.add_comm]
  rfl

/-- Every call of `lightNumber` is a write to one of the eight segment pins. -/
theorem SevSeg.lightNumber_writes (self : SevSeg) (s : Symbols) (k : Nat) :
    ∀ e ∈ self.lightNumber s k, self.SegmentWrite e := by
  rcases Nat.lt_or_ge k 10 with hk | hk
  · interval_cases k <;> simp [SevSeg.lightNumber, SevSeg.SegmentWrite, SevSeg.glyphPins]
  · rw [SevSeg.lightNumber_of_ge self s k hk]
    split_ifs <;> simp [SevSeg.SegmentWrite, SevSeg.glyphPins]

/-! ## Consequences of the configuration -/

theorem SevSeg.Configured.eq_object {self : SevSeg} (h : self.Configured) :
    self = SevSeg.Begin.object self.mode self.numberOfDigits self.digit1 self.digit2
      self.digit3 self.digit4 self.segmentA self.segmentB self.segmentC self.segmentD
      self.segmentE self.segmentF self.segmentG self.segmentDP := by
  have h1 := h.1
  unfold SevSeg.Begin at h1
  simp only [Option.map_map, Option.map_eq_some'] at h1
  obtain ⟨es, _, hes⟩ := h1
  exact hes.symm

theorem SevSeg.Configured.digit_levels {self : SevSeg} (h : self.Configured) :
    self.DigitOn ≠ self.DigitOff := by
  rw [h.eq_object]
  cases self.mode <;> simp [SevSeg.Begin.object, COMMON_ANODE]

theorem SevSeg.Configured.seg_levels {self : SevSeg} (h : self.Configured) :
    self.SegOn ≠ self.SegOff := by
  rw [h.eq_object]
  cases self.mode <;> simp [SevSeg.Begin.object, COMMON_ANODE]

/-- The calls that end a pass leave the display turned off, whatever the board
was before. -/
theorem SevSeg.off_after_turnOff {self : SevSeg} (hc : self.Configured) {s : Symbols}
    (hs : s.Valid) (b : Board) :
    self.Off (b.run (SevSeg.DisplayNumber.turnOff self s)) := by
  have hnd := hc.2
  have hnd2 := List.nodup_reverse.mpr hnd
  simp [SevSeg.pins, SevSeg.digitLines, SevSeg.glyphPins] at hnd hnd2
  obtain ⟨⟨hb1, hb2⟩, _⟩ := hs
  unfold SevSeg.DisplayNumber.turnOff
  rw [toByte_natCast _ hb2, SevSeg.lightNumber_of_ge _ _ _ hb1, if_pos rfl]
  simp [SevSeg.Off, SevSeg.LinesOff, SevSeg.Blank, SevSeg.digitLines, SevSeg.glyphPins, hnd,
    hnd2]

/-! ## One pass of the loop -/

theorem SevSeg.lightNumber_quiet (self : SevSeg) (s : Symbols) (k : Nat) :
    ∀ e ∈ self.lightNumber s k, ∀ us, e ≠ Event.delayMicroseconds us := by
  intro e he us hev
  have hw := self.lightNumber_writes s k e he
  rw [hev] at hw
  exact hw

/-- Drawing the number on blank segments shows the pattern `shown`. -/
theorem SevSeg.segments_after_number {self : SevSeg} (hc : self.Configured) {s : Symbols}
    (hs : s.Valid) (b : Board) (hb : ∀ pin ∈ self.glyphPins, b.level pin = self.SegOff)
    (t : Int) (neg : Bool) :
    self.segments (b.run (SevSeg.DisplayNumber.number self s t neg).1) = shown t neg := by
  have hnd := hc.2
  have hnd2 := List.nodup_reverse.mpr hnd
  simp [SevSeg.pins, SevSeg.digitLines, SevSeg.glyphPins] at hnd hnd2
  have hl := hc.seg_levels
  simp [SevSeg.glyphPins] at hb
  obtain ⟨_, ⟨hd1, hd2⟩, _, hbd, _, _⟩ := hs
  unfold SevSeg.DisplayNumber.number shown
  split_ifs with h1 h2
  · have hk := toByte_tmod_lt t h1
    generalize toByte (t.tmod 10) = k at hk
    interval_cases k <;>
      simp [SevSeg.lightNumber, SevSeg.segments, SevSeg.glyphPins, glyph, hnd, hnd2, hb, hl,
        hl.symm]
  · rw [toByte_natCast _ hd2, SevSeg.lightNumber_of_ge _ _ _ hd1, if_neg (Ne.symm hbd),
      if_pos rfl]
    simp [SevSeg.segments, SevSeg.glyphPins, dashGlyph, hnd, hnd2, hb, hl, hl.symm]
  · simp [SevSeg.segments, SevSeg.glyphPins, blankGlyph, hb, hl, hl.symm]

/-- Drawing the number does not touch the decimal point. -/
theorem SevSeg.point_after_number {self : SevSeg} (hc : self.Configured) {s : Symbols}
    (hs : s.Valid) (b : Board) (t : Int) (neg : Bool) :
    (b.run (SevSeg.DisplayNumber.number self s t neg).1).level self.segmentDP =
      b.level self.segmentDP := by
  have hnd := hc.2
  have hnd2 := List.nodup_reverse.mpr hnd
  simp [SevSeg.pins, SevSeg.digitLines, SevSeg.glyphPins] at hnd hnd2
  obtain ⟨_, ⟨hd1, hd2⟩, _, hbd, _, _⟩ := hs
  unfold SevSeg.DisplayNumber.number
  split_ifs with h1 h2
  · have hk := toByte_tmod_lt t h1
    generalize toByte (t.tmod 10) = k at hk
    interval_cases k <;> simp [SevSeg.lightNumber, hnd, hnd2]
  · rw [toByte_natCast _ hd2, SevSeg.lightNumber_of_ge _ _ _ hd1, if_neg (Ne.symm hbd),
      if_pos rfl]
    simp [hnd, hnd2]
  · rfl

theorem SevSeg.number_writes (self : SevSeg) (s : Symbols) (t : Int) (neg : Bool) :
    ∀ e ∈ (SevSeg.DisplayNumber.number self s t neg).1, self.SegmentWrite e := by
  unfold SevSeg.DisplayNumber.number
  split_ifs
  · exact self.lightNumber_writes s _
  · exact self.lightNumber_writes s _
  · simp

theorem SevSeg.point_writes (self : SevSeg) (s : Symbols) (DecPlace digit : Nat) :
    ∀ e ∈ SevSeg.DisplayNumber.point self s DecPlace digit, self.SegmentWrite e := by
  unfold SevSeg.DisplayNumber.point
  split_ifs
  · exact self.lightNumber_writes s _
  · simp

/-- The decimal point step: the point is lit exactly when `DecPlace = digit`,
the segments A..G and the digit-select lines are left alone. -/
theorem SevSeg.level_after_point (self : SevSeg) {s : Symbols}
    (hs : s.Valid) (b : Board) (DecPlace digit q : Nat) :
    (b.run (SevSeg.DisplayNumber.point self s DecPlace digit)).level q =
      if DecPlace = digit ∧ q = self.segmentDP then self.SegOn else b.level q := by
  obtain ⟨⟨_, _⟩, ⟨_, _⟩, ⟨hp1, hp2⟩, _, hbp, hdp⟩ := hs
  unfold SevSeg.DisplayNumber.point
  by_cases h : DecPlace = digit
  · rw [if_pos h, toByte_natCast _ hp2, SevSeg.lightNumber_of_ge _ _ _ hp1,
      if_neg (Ne.symm hbp), if_neg (Ne.symm hdp), if_pos rfl]
    simp [h]
  · simp [h]

/-- Selecting a position leaves every pin but the digit-select lines alone. -/
theorem SevSeg.level_after_select (self : SevSeg) (digit q : Nat) (b : Board) :
    (b.run (SevSeg.DisplayNumber.select self digit)).level q =
      if (digit = 1 ∧ q = self.digit1) ∨ (digit = 2 ∧ q = self.digit2) ∨
          (digit = 3 ∧ q = self.digit3) ∨ (digit = 4 ∧ q = self.digit4)
        then self.DigitOn else b.level q := by
  unfold SevSeg.DisplayNumber.select
  split <;> simp_all

/-- Calls that only write segment pins leave every other pin alone. -/
theorem SevSeg.level_run_of_segmentWrites (self : SevSeg) (es : List Event)
    (h : ∀ e ∈ es, self.SegmentWrite e) (q : Nat) (b : Board)
    (hq : q ∉ self.glyphPins ++ [self.segmentDP]) : (b.run es).level q = b.level q := by
  apply Board.level_run_of_untouched
  intro e he v hev
  have hw := h e he
  rw [hev] at hw
  exact hq hw

theorem SevSeg.quiet_of_segmentWrites (self : SevSeg) (es : List Event)
    (h : ∀ e ∈ es, self.SegmentWrite e) : ∀ e ∈ es, ∀ us, e ≠ Event.delayMicroseconds us := by
  intro e he us hev
  have hw := h e he
  rw [hev] at hw
  exact hw

theorem SevSeg.select_quiet (self : SevSeg) (digit : Nat) :
    ∀ e ∈ SevSeg.DisplayNumber.select self digit, ∀ us, e ≠ Event.delayMicroseconds us := by
  unfold SevSeg.DisplayNumber.select
  split <;> simp

theorem SevSeg.turnOff_quiet (self : SevSeg) (s : Symbols) :
    ∀ e ∈ SevSeg.DisplayNumber.turnOff self s, ∀ us, e ≠ Event.delayMicroseconds us := by
  unfold SevSeg.DisplayNumber.turnOff
  intro e he
  rcases List.mem_append.mp he with h | h
  · exact self.lightNumber_quiet s _ e h
  · simp at h
    rcases h with rfl | rfl | rfl | rfl <;> simp

theorem SevSeg.body_calls (self : SevSeg) (s : Symbols) (DecPlace digit : Nat) (t : Int)
    (neg : Bool) :
    (SevSeg.DisplayNumber.body self s DecPlace digit t neg).1 =
      SevSeg.DisplayNumber.draw self s DecPlace digit t neg ++
        Event.delayMicroseconds 2000 :: SevSeg.DisplayNumber.turnOff self s := by
  simp [SevSeg.DisplayNumber.body, SevSeg.DisplayNumber.draw]

theorem SevSeg.body_toDisplay (self : SevSeg) (s : Symbols) (DecPlace digit : Nat) (t : Int)
    (neg : Bool) :
    (SevSeg.DisplayNumber.body self s DecPlace digit t neg).2.1 = t.tdiv 10 := rfl

theorem SevSeg.body_negative (self : SevSeg) (s : Symbols) (DecPlace digit : Nat) (t : Int)
    (neg : Bool) :
    (SevSeg.DisplayNumber.body self s DecPlace digit t neg).2.2 =
      if t > 0 then neg else false := by
  simp only [SevSeg.DisplayNumber.body, SevSeg.DisplayNumber.number]
  split_ifs <;> simp_all

theorem SevSeg.draw_quiet (self : SevSeg) (s : Symbols) (DecPlace digit : Nat) (t : Int)
    (neg : Bool) :
    ∀ e ∈ SevSeg.DisplayNumber.draw self s DecPlace digit t neg,
      ∀ us, e ≠ Event.delayMicroseconds us := by
  intro e he
  unfold SevSeg.DisplayNumber.draw at he
  rcases List.mem_append.mp he with h | h
  · rcases List.mem_append.mp h with h | h
    · exact self.select_quiet digit e h
    · exact self.quiet_of_segmentWrites _ (self.number_writes s t neg) e h
  · exact self.quiet_of_segmentWrites _ (self.point_writes s DecPlace digit) e h

/-- A pass has exactly one dwell, with the board as the drawing calls left it. -/
theorem SevSeg.dwells_body (self : SevSeg) (s : Symbols) (DecPlace digit : Nat) (t : Int)
    (neg : Bool) (b : Board) :
    dwells b (SevSeg.DisplayNumber.body self s DecPlace digit t neg).1 =
      [b.run (SevSeg.DisplayNumber.draw self s DecPlace digit t neg)] := by
  rw [self.body_calls, dwells_append_of_quiet _ _ _ (self.draw_quiet s DecPlace digit t neg)]
  simp [dwells, dwells_of_quiet _ _ (self.turnOff_quiet s)]

/-- Every pass ends with the display turned off, whatever the board was. -/
theorem SevSeg.off_after_body {self : SevSeg} (hc : self.Configured) {s : Symbols}
    (hs : s.Valid) (DecPlace digit : Nat) (t : Int) (neg : Bool) (b : Board) :
    self.Off (b.run (SevSeg.DisplayNumber.body self s DecPlace digit t neg).1) := by
  rw [self.body_calls, Board.run_append, Board.run_cons]
  exact SevSeg.off_after_turnOff hc hs _

/-- During the dwell of a pass that started with a blank display, the segments
A..G show the pattern `shown`. -/
theorem SevSeg.segments_draw {self : SevSeg} (hc : self.Configured) {s : Symbols}
    (hs : s.Valid) (DecPlace digit : Nat) (t : Int) (neg : Bool) (b : Board)
    (hb : self.Blank b) :
    self.segments (b.run (SevSeg.DisplayNumber.draw self s DecPlace digit t neg)) =
      shown t neg := by
  have hnd := hc.2
  have hnd2 := List.nodup_reverse.mpr hnd
  simp [SevSeg.pins, SevSeg.digitLines, SevSeg.glyphPins] at hnd hnd2
  have hb2 := hb
  simp [SevSeg.Blank, SevSeg.glyphPins] at hb2
  unfold SevSeg.DisplayNumber.draw
  rw [Board.run_append, Board.run_append,
    ← SevSeg.segments_after_number hc hs (b.run (SevSeg.DisplayNumber.select self digit)) _ t neg]
  · simp [SevSeg.segments, SevSeg.glyphPins, SevSeg.level_after_point self hs, hnd, hnd2]
  · simp [SevSeg.glyphPins, SevSeg.level_after_select, hnd, hnd2, hb2]

/-- During the dwell of a pass that started with a blank display, the decimal
point is lit exactly when `DecPlace` is the position of the pass. -/
theorem SevSeg.point_draw {self : SevSeg} (hc : self.Configured) {s : Symbols}
    (hs : s.Valid) (DecPlace digit : Nat) (t : Int) (neg : Bool) (b : Board)
    (hb : self.Blank b) :
    self.point (b.run (SevSeg.DisplayNumber.draw self s DecPlace digit t neg)) =
      decide (DecPlace = digit) := by
  have hnd := hc.2
  have hnd2 := List.nodup_reverse.mpr hnd
  simp [SevSeg.pins, SevSeg.digitLines, SevSeg.glyphPins] at hnd hnd2
  have hl := hc.seg_levels
  have hb2 := hb
  simp [SevSeg.Blank, SevSeg.glyphPins] at hb2
  unfold SevSeg.DisplayNumber.draw SevSeg.point
  rw [Board.run_append, Board.run_append, SevSeg.level_after_point self hs,
    SevSeg.point_after_number hc hs, SevSeg.level_after_select]
  simp [hnd, hnd2, hb2, hl, hl.symm]

/-- During the dwell of a pass that started with all lines off, the
digit-select line of the position of the pass is on and no other. -/
theorem SevSeg.selected_draw {self : SevSeg} (hc : self.Configured) (s : Symbols)
    (DecPlace digit : Nat) (t : Int) (neg : Bool) (b : Board) (hb : self.LinesOff b) :
    self.selected (b.run (SevSeg.DisplayNumber.draw self s DecPlace digit t neg)) =
      [decide (digit = 1), decide (digit = 2), decide (digit = 3), decide (digit = 4)] := by
  have hnd := hc.2
  have hnd2 := List.nodup_reverse.mpr hnd
  simp [SevSeg.pins, SevSeg.digitLines, SevSeg.glyphPins] at hnd hnd2
  have hl := hc.digit_levels
  have hb1 := hb
  simp [SevSeg.LinesOff, SevSeg.digitLines] at hb1
  have hseg : ∀ e ∈ (SevSeg.DisplayNumber.number self s t neg).1
      ++ SevSeg.DisplayNumber.point self s DecPlace digit, self.SegmentWrite e := by
    intro e he
    rcases List.mem_append.mp he with h | h
    · exact self.number_writes s t neg e h
    · exact self.point_writes s DecPlace digit e h
  unfold SevSeg.DisplayNumber.draw SevSeg.selected
  rw [List.append_assoc, Board.run_append]
  simp only [SevSeg.digitLines, List.map]
  rw [self.level_run_of_segmentWrites _ hseg self.digit1,
    self.level_run_of_segmentWrites _ hseg self.digit2,
    self.level_run_of_segmentWrites _ hseg self.digit3,
    self.level_run_of_segmentWrites _ hseg self.digit4]
  · simp [SevSeg.level_after_select, hnd, hnd2, hb1, hl, hl.symm]
  all_goals simp [SevSeg.glyphPins, hnd, hnd2]

/-! ## The whole loop -/

/-- What the dwells of the loop show, for any way `f` of looking at the board
whose value during the dwell of a pass is `g` of the loop variables, provided
the pass started from a board with the property `P`. Every pass ends with the
display turned off, so `P` need only follow from that. -/
theorem SevSeg.dwells_loop {self : SevSeg} (hc : self.Configured) {s : Symbols} (hs : s.Valid)
    (DecPlace : Nat) {α : Type} (f : Board → α) (g : Nat → Int → Bool → α)
    (P : Board → Prop) (hP : ∀ b, self.Off b → P b)
    (hfg : ∀ digit t neg b, P b →
      f (b.run (SevSeg.DisplayNumber.draw self s DecPlace digit t neg)) = g digit t neg)
    (n : Nat) (t : Int) (neg : Bool) (b : Board) (hb : P b) :
    (dwells b (SevSeg.DisplayNumber.loop self s DecPlace n t neg).flatten).map f =
      (loopVars n t neg).map (fun x => g x.1 x.2.1 x.2.2) := by
  induction n generalizing t neg b with
  | zero => simp [SevSeg.DisplayNumber.loop, loopVars, dwells]
  | succ n ih =>
    have hoff := hP _ (SevSeg.off_after_body hc hs DecPlace (n + 1) t neg b)
    simp only [SevSeg.DisplayNumber.loop, List.flatten_cons, dwells_append, SevSeg.dwells_body,
      loopVars, List.map_cons, List.map_append, List.map_nil, List.singleton_append]
    rw [hfg _ _ _ _ hb, ih _ _ _ hoff, self.body_toDisplay, self.body_negative]

/-- What one refresh shows from left to right, for any way `f` of looking at
the board, when the refresh starts from a board with the property `P`. -/
theorem SevSeg.frame_map {self : SevSeg} (hc : self.Configured) {s : Symbols} (hs : s.Valid)
    (DecPlace : Nat) {α : Type} (f : Board → α) (g : Nat → Int → Bool → α)
    (P : Board → Prop) (hP : ∀ b, self.Off b → P b)
    (hfg : ∀ digit t neg b, P b →
      f (b.run (SevSeg.DisplayNumber.draw self s DecPlace digit t neg)) = g digit t neg)
    (v : Int) (b : Board) (hb : P b) :
    (self.frame s v DecPlace b).map f =
      ((loopVars self.numberOfDigits (SevSeg.DisplayNumber.start v).1
        (SevSeg.DisplayNumber.start v).2).map (fun x => g x.1 x.2.1 x.2.2)).reverse := by
  unfold SevSeg.frame SevSeg.DisplayNumber SevSeg.DisplayNumber.passes
  rw [List.map_reverse, SevSeg.dwells_loop hc hs DecPlace f g P hP hfg _ _ _ b hb]

/-- The display after the first `k` passes of the loop is turned off, for
every `k` from 1 to the number of passes. -/
theorem SevSeg.off_after_passes {self : SevSeg} (hc : self.Configured) {s : Symbols}
    (hs : s.Valid) (DecPlace : Nat) (n : Nat) (t : Int) (neg : Bool) (b : Board) (k : Nat)
    (hk1 : 1 ≤ k) (hkn : k ≤ n) :
    self.Off (b.run ((SevSeg.DisplayNumber.loop self s DecPlace n t neg).take k).flatten) := by
  induction n generalizing t neg b k with
  | zero => omega
  | succ n ih =>
    obtain ⟨j, rfl⟩ : ∃ j, k = j + 1 := ⟨k - 1, by omega⟩
    simp only [SevSeg.DisplayNumber.loop, List.take_succ_cons, List.flatten_cons,
      Board.run_append]
    rcases Nat.eq_zero_or_pos j with hj | hj
    · subst hj
      simpa using SevSeg.off_after_body hc hs DecPlace (n + 1) t neg b
    · exact ih _ _ _ j hj (by omega)

theorem SevSeg.length_loop (self : SevSeg) (s : Symbols) (DecPlace n : Nat) (t : Int)
    (neg : Bool) : (SevSeg.DisplayNumber.loop self s DecPlace n t neg).length = n := by
  induction n generalizing t neg with
  | zero => rfl
  | succ n ih => simp [SevSeg.DisplayNumber.loop, ih]

theorem tdiv_natCast (N : Nat) : ((N : Int)).tdiv 10 = ((N / 10 : Nat) : Int) := by
  rw [Int.tdiv_eq_ediv (by omega) (by omega)]
  omega

theorem toByte_tmod_natCast (N : Nat) : toByte ((N : Int).tmod 10) = N % 10 := by
  unfold toByte
  rw [Int.tmod_eq_emod (by omega) (by omega)]
  omega

/-- The pattern a pass draws, for a number that is not negative. -/
theorem shown_natCast (N : Nat) (neg : Bool) :
    shown (N : Int) neg =
      if 0 < N then glyph (N % 10) else if neg = true then dashGlyph else blankGlyph := by
  unfold shown
  rw [toByte_tmod_natCast]
  simp

theorem start_of_neg (v : Int) (h1 : -32768 < v) (h2 : v < 0) :
    SevSeg.DisplayNumber.start v = ((v.natAbs : Int), true) := by
  unfold SevSeg.DisplayNumber.start wrapInt
  rw [if_pos h2]
  congr 1
  omega

theorem start_of_nonneg (v : Int) (h : 0 ≤ v) :
    SevSeg.DisplayNumber.start v = ((v.natAbs : Int), false) := by
  unfold SevSeg.DisplayNumber.start
  rw [if_neg (by omega)]
  congr 1
  omega

/-- The four patterns of a refresh of a four-digit display, in program order,
for the magnitude `N` and the sign flag `neg`. -/
theorem shown_loopVars_four (N : Nat) (neg : Bool) :
    (loopVars 4 (N : Int) neg).map (fun x => shown x.2.1 x.2.2) =
      [ (if 0 < N then glyph (N % 10) else if neg = true then dashGlyph else blankGlyph),
        (if 0 < N / 10 then glyph (N / 10 % 10)
          else if 0 < N ∧ neg = true then dashGlyph else blankGlyph),
        (if 0 < N / 100 then glyph (N / 100 % 10)
          else if 0 < N / 10 ∧ neg = true then dashGlyph else blankGlyph),
        (if 0 < N / 1000 then glyph (N / 1000 % 10)
          else if 0 < N / 100 ∧ neg = true then dashGlyph else blankGlyph) ] := by
  have e1 : N / 10 / 10 = N / 100 := by omega
  have e2 : N / 100 / 10 = N / 1000 := by omega
  simp only [loopVars, List.map_cons, List.map_nil, tdiv_natCast, shown_natCast, e1, e2,
    Int.natCast_pos]
  by_cases h0 : 0 < N <;> by_cases h1 : 0 < N / 10 <;> by_cases h2 : 0 < N / 100 <;>
    simp [h0, h1, h2] <;> omega

/-! ## Out-of-range numbers -/

/-- C1. `DisplayNumber` has no range check: `DisplayNumber(10000, 0)` on the
four-digit example display draws the digit 0 in each of the four positions
(segments A..F, G dark), not the dash (segment G only), so the display reads
"0000" where the claim and the file header promise "----". The decimal point
stays dark. -/
theorem displayNumber_10000_shows_zeros :
    (exampleDisplay.frame exampleSymbols 10000 0 exampleBoard).map exampleDisplay.segments =
        [[true, true, true, true, true, true, false],
         [true, true, true, true, true, true, false],
         [true, true, true, true, true, true, false],
         [true, true, true, true, true, true, false]] ∧
      (exampleDisplay.frame exampleSymbols 10000 0 exampleBoard).map
        (fun bd => readDigit (exampleDisplay.segments bd)) = [some 0, some 0, some 0, some 0] ∧
      (exampleDisplay.frame exampleSymbols 10000 0 exampleBoard).map exampleDisplay.point =
        [false, false, false, false] ∧
      dashGlyph = [false, false, false, false, false, false, true] := by
  decide

/-! ## Digits of the number -/

/-- C2. `DisplayNumber(0, 0)` on the four-digit example display, started from
the blank state, shows no digit at all: all four positions stay blank, so the
digits read off the display are the empty sequence, while the decimal digits
of 0 are the single digit "0". -/
theorem displayNumber_zero_shows_no_digit :
    (exampleDisplay.frame exampleSymbols 0 0 exampleBoard).map exampleDisplay.segments =
        [blankGlyph, blankGlyph, blankGlyph, blankGlyph] ∧
      readDigits ((exampleDisplay.frame exampleSymbols 0 0 exampleBoard).map
        exampleDisplay.segments) = [] ∧
      Nat.toDigits 10 (0 : Int).natAbs = ['0'] := by
  decide

theorem readDigit_glyph (d : Nat) (hd : d < 10) : readDigit (glyph d) = some d := by
  interval_cases d <;> decide

theorem readDigit_sign (c : Prop) [Decidable c] :
    readDigit (if c then dashGlyph else blankGlyph) = none := by
  split_ifs <;> decide

/-- Digits of a number below 10000, least significant first. -/
theorem digits_lt_10000 (N : Nat) (h1 : 0 < N) (h2 : N < 10000) :
    Nat.digits 10 N =
      if N < 10 then [N % 10]
      else if N < 100 then [N % 10, N / 10 % 10]
      else if N < 1000 then [N % 10, N / 10 % 10, N / 100 % 10]
      else [N % 10, N / 10 % 10, N / 100 % 10, N / 1000 % 10] := by
  have e1 : N / 10 / 10 = N / 100 := by omega
  have e2 : N / 100 / 10 = N / 1000 := by omega
  split_ifs with a b c
  · have z : N / 10 = 0 := by omega
    rw [Nat.digits_def' (by omega) h1, z, Nat.digits_zero]
  · have z : N / 100 = 0 := by omega
    rw [Nat.digits_def' (by omega) h1, Nat.digits_def' (by omega) (by omega), e1, z,
      Nat.digits_zero]
  · have z : N / 1000 = 0 := by omega
    rw [Nat.digits_def' (by omega) h1, Nat.digits_def' (by omega) (by omega), e1,
      Nat.digits_def' (by omega) (by omega), e2, z, Nat.digits_zero]
  · have z : N / 1000 / 10 = 0 := by omega
    rw [Nat.digits_def' (by omega) h1, Nat.digits_def' (by omega) (by omega), e1,
      Nat.digits_def' (by omega) (by omega), e2, Nat.digits_def' (by omega) (by omega), z,
      Nat.digits_zero]

/-- The part of C2 that the code keeps: on a four-digit display started from
the blank state, for every `v` from -999 to 9999 other than 0, the digit
patterns of a refresh read from left to right, blanks and the sign slot
dropped, are the decimal digits of `|v|`, most significant first. -/
theorem displayNumber_digits_of_nonzero (self : SevSeg) (s : Symbols) (v : Int)
    (DecPlace : Nat) (b : Board) (hc : self.Configured) (h4 : self.numberOfDigits = 4)
    (hs : s.Valid) (hb : self.Blank b) (hv1 : -999 ≤ v) (hv2 : v ≤ 9999) (hv0 : v ≠ 0) :
    readDigits ((self.frame s v DecPlace b).map self.segments) =
      (Nat.digits 10 v.natAbs).reverse := by
  have hframe := SevSeg.frame_map hc hs DecPlace self.segments (fun _ t neg => shown t neg)
    self.Blank (fun _ h => h.2)
    (fun digit t neg b hb => SevSeg.segments_draw hc hs DecPlace digit t neg b hb) v b hb
  rw [h4] at hframe
  have hstart : ∃ neg, SevSeg.DisplayNumber.start v = ((v.natAbs : Int), neg) := by
    rcases Int.lt_or_le v 0 with h | h
    · exact ⟨true, start_of_neg v (by omega) h⟩
    · exact ⟨false, start_of_nonneg v h⟩
  obtain ⟨neg, hneg⟩ := hstart
  rw [hneg] at hframe
  simp only [shown_loopVars_four] at hframe
  rw [hframe]
  generalize hN : v.natAbs = N
  have hN1 : 0 < N := by omega
  have hN2 : N < 10000 := by omega
  rw [digits_lt_10000 N hN1 hN2]
  have r0 := readDigit_glyph (N % 10) (by omega)
  have r1 := readDigit_glyph (N / 10 % 10) (by omega)
  have r2 := readDigit_glyph (N / 100 % 10) (by omega)
  have r3 := readDigit_glyph (N / 1000 % 10) (by omega)
  have s1 := readDigit_sign (0 < N ∧ neg = true)
  have s2 := readDigit_sign (0 < N / 10 ∧ neg = true)
  have s3 := readDigit_sign (0 < N / 100 ∧ neg = true)
  simp only [hN1, true_and, if_true] at s1 ⊢
  have rb : readDigit blankGlyph = none := by decide
  by_cases h10 : N < 10
  · have z1 : ¬ 0 < N / 10 := by omega
    have z2 : ¬ 0 < N / 100 := by omega
    have z3 : ¬ 0 < N / 1000 := by omega
    simp [readDigits, List.filterMap_cons, rb, h10, z1, z2, z3, r0, s1]
  by_cases h100 : N < 100
  · have p1 : 0 < N / 10 := by omega
    have z2 : ¬ 0 < N / 100 := by omega
    have z3 : ¬ 0 < N / 1000 := by omega
    simp [readDigits, List.filterMap_cons, rb, h10, h100, p1, z2, z3, r0, r1, s1]
  by_cases h1000 : N < 1000
  · have p1 : 0 < N / 10 := by omega
    have p2 : 0 < N / 100 := by omega
    have z3 : ¬ 0 < N / 1000 := by omega
    simp [readDigits, List.filterMap_cons, rb, h10, h100, h1000, p1, p2, z3, r0, r1, r2, s1]
  · have p1 : 0 < N / 10 := by omega
    have p2 : 0 < N / 100 := by omega
    have p3 : 0 < N / 1000 := by omega
    simp [readDigits, List.filterMap_cons, rb, h10, h100, h1000, p1, p2, p3, r0, r1, r2, r3]

theorem glyph_ne_dashGlyph (d : Nat) : glyph d ≠ dashGlyph := by
  unfold glyph
  split <;> decide

theorem blankGlyph_ne_dashGlyph : blankGlyph ≠ dashGlyph := by
  decide

/-! ## The sign -/

/-- C3. On a four-digit display, for every `v` from -999 to -1, a refresh that
starts from the blank state (no segment lit, as `Begin` and every refresh
leave the display) shows from left to right: blank positions, then the dash
(segment G only), then the digits of `|v|`, most significant first. With `k` the number of digits of
`|v|` the row is `3 - k` blanks, one dash, `k` digits, so the dash stands
immediately left of the most significant digit, everything further left is
blank, and the dash occurs exactly once in the row. The patterns are those of
the segments A..G (the decimal point is looked at separately). -/
theorem displayNumber_sign_slot (self : SevSeg) (s : Symbols) (v : Int) (DecPlace : Nat)
    (b : Board) (hc : self.Configured) (h4 : self.numberOfDigits = 4) (hs : s.Valid)
    (hb : self.Blank b) (hv1 : -999 ≤ v) (hv2 : v ≤ -1) :
    (self.frame s v DecPlace b).map self.segments =
        List.replicate (3 - (Nat.digits 10 v.natAbs).length) blankGlyph ++
          dashGlyph :: (Nat.digits 10 v.natAbs).reverse.map glyph ∧
      ((self.frame s v DecPlace b).map self.segments).count dashGlyph = 1 := by
  have hframe := SevSeg.frame_map hc hs DecPlace self.segments (fun _ t neg => shown t neg)
    self.Blank (fun _ h => h.2)
    (fun digit t neg b hb => SevSeg.segments_draw hc hs DecPlace digit t neg b hb) v b hb
  rw [h4, start_of_neg v (by omega) (by omega)] at hframe
  simp only [shown_loopVars_four] at hframe
  rw [hframe]
  generalize hN : v.natAbs = N
  have hN1 : 1 ≤ N := by omega
  have hN2 : N ≤ 999 := by omega
  have g1 := glyph_ne_dashGlyph (N % 10)
  have g2 := glyph_ne_dashGlyph (N / 10 % 10)
  have g3 := glyph_ne_dashGlyph (N / 100 % 10)
  have g0 := blankGlyph_ne_dashGlyph
  have z3 : ¬ 0 < N / 1000 := by omega
  rcases Nat.lt_or_ge N 10 with h10 | h10
  · have d : Nat.digits 10 N = [N % 10] := by
      rw [Nat.digits_def' (by omega) (by omega)]
      have : N / 10 = 0 := by omega
      simp [this]
    have z1 : ¬ 0 < N / 10 := by omega
    have z2 : ¬ 0 < N / 100 := by omega
    have p0 : 0 < N := by omega
    rw [d]
    simp [z1, z2, z3, p0, List.replicate, List.count_cons, g1, g0]
  · rcases Nat.lt_or_ge N 100 with h100 | h100
    · have d : Nat.digits 10 N = [N % 10, N / 10 % 10] := by
        rw [Nat.digits_def' (by omega) (by omega), Nat.digits_def' (by omega) (by omega)]
        have : N / 10 / 10 = 0 := by omega
        simp [this]
      have p1 : 0 < N / 10 := by omega
      have z2 : ¬ 0 < N / 100 := by omega
      have p0 : 0 < N := by omega
      rw [d]
      simp [p1, z2, z3, p0, List.replicate, List.count_cons, g1, g2, g0]
    · have d : Nat.digits 10 N = [N % 10, N / 10 % 10, N / 100 % 10] := by
        rw [Nat.digits_def' (by omega) (by omega), Nat.digits_def' (by omega) (by omega),
          Nat.digits_def' (by omega) (by omega)]
        have e1 : N / 10 / 10 = N / 100 := by omega
        have e2 : N / 100 / 10 = 0 := by omega
        rw [e1, e2]
        simp
      have p1 : 0 < N / 10 := by omega
      have p2 : 0 < N / 100 := by omega
      have p0 : 0 < N := by omega
      rw [d]
      simp [p1, p2, z3, p0, List.replicate, List.count_cons, g1, g2, g3]

/-- C3 on the example display for `DisplayNumber(-7, 0)`, which shows blank,
blank, dash, 7. -/
theorem displayNumber_sign_slot_witness :
    (exampleDisplay.frame exampleSymbols (-7) 0 exampleBoard).map exampleDisplay.segments =
        List.replicate (3 - (Nat.digits 10 (-7 : Int).natAbs).length) blankGlyph ++
          dashGlyph :: (Nat.digits 10 (-7 : Int).natAbs).reverse.map glyph ∧
      ((exampleDisplay.frame exampleSymbols (-7) 0 exampleBoard).map
        exampleDisplay.segments).count dashGlyph = 1 :=
  displayNumber_sign_slot exampleDisplay exampleSymbols (-7) 0 exampleBoard (by decide) rfl
    (by decide) (by decide) (by decide) (by decide)

/-! ## The decimal point -/

/-- C4. `DisplayNumber(3141, 3)` on the four-digit example display lights the
decimal point during the dwell of the third position from the left (the one
whose line `digit3` is on), next to the digit 4: the display reads "314.1",
with one digit to the right of the point, where the claim and the file header
promise "3.141" with three. -/
theorem displayNumber_3141_3_shows_314_1 :
    (exampleDisplay.frame exampleSymbols 3141 3 exampleBoard).map
        (fun bd => (exampleDisplay.selected bd, readDigit (exampleDisplay.segments bd),
          exampleDisplay.point bd)) =
      [([true, false, false, false], some 3, false),
       ([false, true, false, false], some 1, false),
       ([false, false, true, false], some 4, true),
       ([false, false, false, true], some 1, false)] := by
  decide

/-- The positions of the passes, read from the left, are 1, 2, ..., n. -/
theorem loopVars_positions (n : Nat) (t : Int) (neg : Bool) :
    ((loopVars n t neg).map (fun x => x.1)).reverse = List.range' 1 n := by
  induction n generalizing t neg with
  | zero => rfl
  | succ n ih =>
    simp only [loopVars, List.map_cons, List.reverse_cons, ih, List.range'_1_concat]
    rw [Nat.add_comm]

/-- Where the decimal point is lit in a refresh that starts from the blank
state, position by position from the left. -/
theorem SevSeg.frame_point {self : SevSeg} (hc : self.Configured) {s : Symbols} (hs : s.Valid)
    (v : Int) (DecPlace : Nat) (b : Board) (hb : self.Blank b) :
    (self.frame s v DecPlace b).map self.point =
      (List.range' 1 self.numberOfDigits).map (fun p => decide (DecPlace = p)) := by
  rw [SevSeg.frame_map hc hs DecPlace self.point (fun digit _ _ => decide (DecPlace = digit))
    self.Blank (fun _ h => h.2)
    (fun digit t neg b hb => SevSeg.point_draw hc hs DecPlace digit t neg b hb) v b hb]
  rw [← loopVars_positions self.numberOfDigits (SevSeg.DisplayNumber.start v).1
    (SevSeg.DisplayNumber.start v).2]
  simp [List.map_reverse]

/-- Which digit-select line is on during each dwell of a refresh that starts
with the display turned off, position by position from the left: the line of
that position and no other. -/
theorem SevSeg.frame_selected {self : SevSeg} (hc : self.Configured) {s : Symbols}
    (hs : s.Valid) (v : Int) (DecPlace : Nat) (b : Board) (hb : self.Off b) :
    (self.frame s v DecPlace b).map self.selected =
      (List.range' 1 self.numberOfDigits).map (fun p =>
        [decide (p = 1), decide (p = 2), decide (p = 3), decide (p = 4)]) := by
  rw [SevSeg.frame_map hc hs DecPlace self.selected
    (fun digit _ _ => [decide (digit = 1), decide (digit = 2), decide (digit = 3),
      decide (digit = 4)])
    self.LinesOff (fun _ h => h.1)
    (fun digit t neg b hb => SevSeg.selected_draw hc s DecPlace digit t neg b hb) v b hb.1]
  rw [← loopVars_positions self.numberOfDigits (SevSeg.DisplayNumber.start v).1
    (SevSeg.DisplayNumber.start v).2]
  simp [List.map_reverse]

/-- C5. For every value and every `DecPlace`, in a refresh that starts from the
blank state the decimal-point segment is energized (at `SegOn`) during the
dwell of the position `p`, counted from the left with 1 the leftmost and
`numberOfDigits` the rightmost, if and only if `p = DecPlace`. The position `p`
has a dwell: the frame has an entry for it. -/
theorem displayNumber_point_iff (self : SevSeg) (s : Symbols) (v : Int) (DecPlace : Nat)
    (b : Board) (p : Nat) (hc : self.Configured) (hs : s.Valid) (hb : self.Blank b)
    (hp1 : 1 ≤ p) (hp2 : p ≤ self.numberOfDigits) :
    ∃ bd, (self.frame s v DecPlace b)[p - 1]? = some bd ∧
      (bd.level self.segmentDP = self.SegOn ↔ p = DecPlace) := by
  have h := congrArg (fun l => l[p - 1]?) (SevSeg.frame_point hc hs v DecPlace b hb)
  simp only [List.getElem?_map] at h
  rw [List.getElem?_range' 1 1 (by omega : p - 1 < self.numberOfDigits)] at h
  cases hbd : (self.frame s v DecPlace b)[p - 1]? with
  | none => simp [hbd] at h
  | some bd =>
    rw [hbd] at h
    have hp : 1 + 1 * (p - 1) = p := by omega
    simp only [Option.map_some', Option.some.injEq, hp, SevSeg.point] at h
    refine ⟨bd, rfl, ?_⟩
    constructor
    · intro hl
      simp [hl] at h
      exact h.symm
    · intro hpd
      simpa [hpd] using h

/-- C5 on the example display for `DisplayNumber(1022, 2)` at the second
position from the left. -/
theorem displayNumber_point_iff_witness :
    ∃ bd, (exampleDisplay.frame exampleSymbols 1022 2 exampleBoard)[2 - 1]? = some bd ∧
      (bd.level exampleDisplay.segmentDP = exampleDisplay.SegOn ↔ 2 = 2) :=
  displayNumber_point_iff exampleDisplay exampleSymbols 1022 2 exampleBoard 2 (by decide)
    (by decide) (by decide) (by decide) (by decide)

/-! ## Begin -/

/-- C6, as stated, fails: after `Begin` with mode `COMMON_ANODE` the level
`DigitOn` is `HIGH`, not `LOW` (lines 86-91), so the pair (`DigitOn`, `SegOn`)
is not (`LOW`, `LOW`); after `Begin` with mode `COMMON_CATHODE` the level
`DigitOn` is `LOW` (lines 92-97), so the pair is not (`HIGH`, `HIGH`). -/
theorem begin_on_levels_not_equal :
    ((SevSeg.Begin COMMON_ANODE 4 2 3 4 5 6 7 8 9 10 11 12 13).map
          (fun r => (r.1.DigitOn, r.1.SegOn)) = some (Level.HIGH, Level.LOW) ∧
        (SevSeg.Begin COMMON_ANODE 4 2 3 4 5 6 7 8 9 10 11 12 13).map
          (fun r => (r.1.DigitOn, r.1.SegOn)) ≠ some (Level.LOW, Level.LOW)) ∧
      ((SevSeg.Begin COMMON_CATHODE 4 2 3 4 5 6 7 8 9 10 11 12 13).map
          (fun r => (r.1.DigitOn, r.1.SegOn)) = some (Level.LOW, Level.HIGH) ∧
        (SevSeg.Begin COMMON_CATHODE 4 2 3 4 5 6 7 8 9 10 11 12 13).map
          (fun r => (r.1.DigitOn, r.1.SegOn)) ≠ some (Level.HIGH, Level.HIGH)) := by
  decide

/-- The primitive calls of `Begin` for a digit count up to four: the pin modes
of the digit-select pins and of the segment pins, then the off levels. -/
theorem SevSeg.Begin_eq_some (mode_in : Bool)
    (numOfDigits dig1 dig2 dig3 dig4 segA segB segC segD segE segF segG segDP : Nat)
    (hn : numOfDigits ≤ 4) :
    SevSeg.Begin mode_in numOfDigits dig1 dig2 dig3 dig4 segA segB segC segD segE segF
        segG segDP =
      some (SevSeg.Begin.object mode_in numOfDigits dig1 dig2 dig3 dig4 segA segB segC segD
          segE segF segG segDP,
        ([dig1, dig2, dig3, dig4].take numOfDigits).map
            (fun pin => Event.pinMode pin PinMode.OUTPUT) ++
          [segA, segB, segC, segD, segE, segF, segG, segDP].map
            (fun pin => Event.pinMode pin PinMode.OUTPUT) ++
          ([dig1, dig2, dig3, dig4].take numOfDigits).map
            (fun pin => Event.digitalWrite pin
              (if mode_in = COMMON_ANODE then Level.LOW else Level.HIGH)) ++
          [segA, segB, segC, segD, segE, segF, segG, segDP].map
            (fun pin => Event.digitalWrite pin
              (if mode_in = COMMON_ANODE then Level.HIGH else Level.LOW))) := by
  interval_cases numOfDigits <;> rfl

/-- C6, amended. `Begin` returns for every digit count up to four and every
pin assignment, and the levels of the object it returns are: for mode
`COMMON_ANODE`, `DigitOn = HIGH` and `SegOn = LOW`; for mode `COMMON_CATHODE`,
`DigitOn = LOW` and `SegOn = HIGH`. -/
theorem begin_on_levels
    (numOfDigits dig1 dig2 dig3 dig4 segA segB segC segD segE segF segG segDP : Nat)
    (hn : numOfDigits ≤ 4) :
    (SevSeg.Begin COMMON_ANODE numOfDigits dig1 dig2 dig3 dig4 segA segB segC segD segE segF
        segG segDP).map (fun r => (r.1.DigitOn, r.1.SegOn)) = some (Level.HIGH, Level.LOW) ∧
      (SevSeg.Begin COMMON_CATHODE numOfDigits dig1 dig2 dig3 dig4 segA segB segC segD segE
        segF segG segDP).map (fun r => (r.1.DigitOn, r.1.SegOn)) =
          some (Level.LOW, Level.HIGH) := by
  rw [SevSeg.Begin_eq_some COMMON_ANODE numOfDigits dig1 dig2 dig3 dig4 segA
    segB segC segD segE segF segG segDP hn,
    SevSeg.Begin_eq_some COMMON_CATHODE numOfDigits dig1 dig2 dig3 dig4 segA
    segB segC segD segE segF segG segDP hn]
  exact ⟨rfl, rfl⟩

/-- C6, amended, for a four-digit display on the pins 2-13. -/
theorem begin_on_levels_witness :
    (SevSeg.Begin COMMON_ANODE 4 2 3 4 5 6 7 8 9 10 11 12 13).map
        (fun r => (r.1.DigitOn, r.1.SegOn)) = some (Level.HIGH, Level.LOW) ∧
      (SevSeg.Begin COMMON_CATHODE 4 2 3 4 5 6 7 8 9 10 11 12 13).map
        (fun r => (r.1.DigitOn, r.1.SegOn)) = some (Level.LOW, Level.HIGH) :=
  begin_on_levels 4 2 3 4 5 6 7 8 9 10 11 12 13 (by decide)

/-- Board after setting the mode of a list of pins. -/
theorem Board.run_pinModes (ps : List Nat) (m : PinMode) (b : Board) (q : Nat) :
    (b.run (ps.map (fun pin => Event.pinMode pin m))).mode q =
        (if q ∈ ps then m else b.mode q) ∧
      (b.run (ps.map (fun pin => Event.pinMode pin m))).level q = b.level q := by
  induction ps generalizing b with
  | nil => simp
  | cons p ps ih =>
    simp only [List.map_cons, Board.run_cons, ih, Board.step_pinMode_level,
      Board.step_pinMode_mode, List.mem_cons]
    by_cases h1 : q = p <;> by_cases h2 : q ∈ ps <;> simp [h1, h2]

/-- Board after writing one level to a list of pins. -/
theorem Board.run_writes (ps : List Nat) (v : Level) (b : Board) (q : Nat) :
    (b.run (ps.map (fun pin => Event.digitalWrite pin v))).level q =
        (if q ∈ ps then v else b.level q) ∧
      (b.run (ps.map (fun pin => Event.digitalWrite pin v))).mode q = b.mode q := by
  induction ps generalizing b with
  | nil => simp
  | cons p ps ih =>
    simp only [List.map_cons, Board.run_cons, ih, Board.step_write_level,
      Board.step_write_mode, List.mem_cons]
    by_cases h1 : q = p <;> by_cases h2 : q ∈ ps <;> simp [h1, h2]

/-- C7. For every polarity mode, every digit count up to 4 (the counts 1 to 4
of the claim among them) and every assignment of pairwise distinct pins,
`Begin` returns, and on the board it leaves behind every one of the
`numOfDigits` digit-select pins is an `OUTPUT` at `DigitOff` and every one of
the eight segment pins is an `OUTPUT` at `SegOff`: the display starts blank. -/
theorem begin_starts_blank (mode_in : Bool)
    (numOfDigits dig1 dig2 dig3 dig4 segA segB segC segD segE segF segG segDP : Nat)
    (b : Board) (hn4 : numOfDigits ≤ 4)
    (hpins : [dig1, dig2, dig3, dig4, segA, segB, segC, segD, segE, segF, segG, segDP].Nodup) :
    ∃ self es,
      SevSeg.Begin mode_in numOfDigits dig1 dig2 dig3 dig4 segA segB segC segD segE segF segG
        segDP = some (self, es) ∧
      (∀ pin ∈ [dig1, dig2, dig3, dig4].take numOfDigits,
        (b.run es).mode pin = PinMode.OUTPUT ∧ (b.run es).level pin = self.DigitOff) ∧
      (∀ pin ∈ [segA, segB, segC, segD, segE, segF, segG, segDP],
        (b.run es).mode pin = PinMode.OUTPUT ∧ (b.run es).level pin = self.SegOff) := by
  have hdisj : ∀ pin ∈ [dig1, dig2, dig3, dig4],
      pin ∉ [segA, segB, segC, segD, segE, segF, segG, segDP] := by
    have h : ([dig1, dig2, dig3, dig4] ++
        [segA, segB, segC, segD, segE, segF, segG, segDP]).Nodup := hpins
    intro pin h1 h2
    exact (List.nodup_append.mp h).2.2 h1 h2
  refine ⟨_, _, SevSeg.Begin_eq_some mode_in numOfDigits dig1 dig2 dig3 dig4 segA segB segC
    segD segE segF segG segDP hn4, ?_, ?_⟩
  · intro pin hpin
    have hseg := hdisj pin (List.mem_of_mem_take hpin)
    simp only [Board.run_append, Board.run_writes, Board.run_pinModes, if_pos hpin,
      if_neg hseg, SevSeg.Begin.object]
    exact ⟨trivial, trivial⟩
  · intro pin hpin
    simp only [Board.run_append, Board.run_writes, Board.run_pinModes, if_pos hpin,
      SevSeg.Begin.object]
    exact ⟨trivial, trivial⟩

/-- C7 for `Begin(COMMON_CATHODE, 4, 2, ..., 13)` on a board in its power-on
state. -/
theorem begin_starts_blank_witness :
    ∃ self es,
      SevSeg.Begin COMMON_CATHODE 4 2 3 4 5 6 7 8 9 10 11 12 13 = some (self, es) ∧
      (∀ pin ∈ [2, 3, 4, 5].take 4,
        (powerOn.run es).mode pin = PinMode.OUTPUT ∧
          (powerOn.run es).level pin = self.DigitOff) ∧
      (∀ pin ∈ [6, 7, 8, 9, 10, 11, 12, 13],
        (powerOn.run es).mode pin = PinMode.OUTPUT ∧
          (powerOn.run es).level pin = self.SegOff) :=
  begin_starts_blank COMMON_CATHODE 4 2 3 4 5 6 7 8 9 10 11 12 13 powerOn (by decide)
    (by decide)

/-! ## One digit at a time -/

theorem SevSeg.linesOn_eq (self : SevSeg) (b : Board) :
    self.linesOn b =
      (if b.level self.digit1 = self.DigitOn then 1 else 0) +
        (if b.level self.digit2 = self.DigitOn then 1 else 0) +
        (if b.level self.digit3 = self.DigitOn then 1 else 0) +
        (if b.level self.digit4 = self.DigitOn then 1 else 0) := by
  simp only [SevSeg.linesOn, SevSeg.selected, SevSeg.digitLines, List.map_cons, List.map_nil,
    List.count_cons, List.count_nil]
  by_cases h1 : b.level self.digit1 = self.DigitOn <;>
    by_cases h2 : b.level self.digit2 = self.DigitOn <;>
    by_cases h3 : b.level self.digit3 = self.DigitOn <;>
    by_cases h4 : b.level self.digit4 = self.DigitOn <;>
    simp [h1, h2, h3, h4]

/-- A harmless call does not raise the number of lines that are on. -/
theorem SevSeg.linesOn_step_le {self : SevSeg} (hl : self.DigitOn ≠ self.DigitOff)
    (e : Event) (he : self.Harmless e) (b : Board) :
    self.linesOn (b.step e) ≤ self.linesOn b := by
  cases e with
  | pinMode p m => exact Nat.le_refl _
  | delayMicroseconds us => exact Nat.le_refl _
  | digitalWrite p v =>
    rcases he with hp | hv
    · simp [SevSeg.digitLines] at hp
      obtain ⟨h1, h2, h3, h4⟩ := hp
      rw [self.linesOn_eq, self.linesOn_eq]
      simp [Ne.symm h1, Ne.symm h2, Ne.symm h3, Ne.symm h4]
    · subst hv
      rw [self.linesOn_eq, self.linesOn_eq]
      simp only [Board.step_write_level]
      have hl2 := hl.symm
      by_cases h1 : self.digit1 = p <;> by_cases h2 : self.digit2 = p <;>
        by_cases h3 : self.digit3 = p <;> by_cases h4 : self.digit4 = p <;>
        simp [h1, h2, h3, h4, hl2] <;> split_ifs <;> omega

theorem SevSeg.linesOn_run_le {self : SevSeg} (hl : self.DigitOn ≠ self.DigitOff)
    (es : List Event) (he : ∀ e ∈ es, self.Harmless e) (b : Board) :
    self.linesOn (b.run es) ≤ self.linesOn b := by
  induction es generalizing b with
  | nil => exact Nat.le_refl _
  | cons e es ih =>
    rw [Board.run_cons]
    exact Nat.le_trans (ih (fun e' he' => he e' (List.mem_cons_of_mem _ he')) _)
      (SevSeg.linesOn_step_le hl e (he e (List.mem_cons_self _ _)) b)

theorem SevSeg.harmless_of_segmentWrite {self : SevSeg} (hc : self.Configured) (e : Event)
    (he : self.SegmentWrite e) : self.Harmless e := by
  cases e with
  | pinMode p m => trivial
  | delayMicroseconds us => trivial
  | digitalWrite p v =>
    left
    intro hp
    have h : (self.digitLines ++ (self.glyphPins ++ [self.segmentDP])).Nodup := by
      have := hc.2
      rwa [SevSeg.pins, List.append_assoc] at this
    exact (List.nodup_append.mp h).2.2 hp he

/-- Everything a pass does after selecting its position is harmless. -/
theorem SevSeg.harmless_after_select {self : SevSeg} (hc : self.Configured) (s : Symbols)
    (DecPlace digit : Nat) (t : Int) (neg : Bool) :
    ∀ e ∈ (SevSeg.DisplayNumber.number self s t neg).1 ++
        (SevSeg.DisplayNumber.point self s DecPlace digit ++
          (Event.delayMicroseconds 2000 :: SevSeg.DisplayNumber.turnOff self s)),
      self.Harmless e := by
  intro e he
  rcases List.mem_append.mp he with h | h
  · exact SevSeg.harmless_of_segmentWrite hc e (self.number_writes s t neg e h)
  · rcases List.mem_append.mp h with h | h
    · exact SevSeg.harmless_of_segmentWrite hc e (self.point_writes s DecPlace digit e h)
    · rcases List.mem_cons.mp h with h | h
      · rw [h]
        trivial
      · unfold SevSeg.DisplayNumber.turnOff at h
        rcases List.mem_append.mp h with h | h
        · exact SevSeg.harmless_of_segmentWrite hc e (self.lightNumber_writes s _ e h)
        · simp at h
          rcases h with rfl | rfl | rfl | rfl <;> exact Or.inr rfl

theorem SevSeg.linesOn_of_lines_off {self : SevSeg} (hl : self.DigitOn ≠ self.DigitOff)
    (b : Board) (hb : self.LinesOff b) :
    self.linesOn b = 0 := by
  simp [SevSeg.LinesOff, SevSeg.digitLines] at hb
  rw [self.linesOn_eq]
  simp [hb, hl.symm]

/-- Selecting a position on a display with all lines off turns on at most one
line. -/
theorem SevSeg.linesOn_select {self : SevSeg} (hc : self.Configured) (digit k : Nat)
    (b : Board) (hb : self.LinesOff b) :
    self.linesOn (b.run ((SevSeg.DisplayNumber.select self digit).take k)) ≤ 1 := by
  have hnd := hc.2
  have hnd2 := List.nodup_reverse.mpr hnd
  simp [SevSeg.pins, SevSeg.digitLines, SevSeg.glyphPins] at hnd hnd2
  have hl := hc.digit_levels
  have h0 := SevSeg.linesOn_of_lines_off hl b hb
  simp [SevSeg.LinesOff, SevSeg.digitLines] at hb
  cases k with
  | zero => simp [h0]
  | succ k =>
    unfold SevSeg.DisplayNumber.select
    split <;> simp [SevSeg.linesOn_eq, hnd, hnd2, hb, hl.symm, h0]

/-- During a pass that starts with all digit-select lines off, at most one
line is on after every call. -/
theorem SevSeg.linesOn_body {self : SevSeg} (hc : self.Configured) (s : Symbols)
    (DecPlace digit : Nat) (t : Int) (neg : Bool) (k : Nat) (b : Board)
    (hb : self.LinesOff b) :
    self.linesOn (b.run ((SevSeg.DisplayNumber.body self s DecPlace digit t neg).1.take k))
      ≤ 1 := by
  rw [self.body_calls, SevSeg.DisplayNumber.draw, List.append_assoc, List.append_assoc,
    List.take_append_eq_append_take, Board.run_append]
  refine Nat.le_trans (SevSeg.linesOn_run_le hc.digit_levels _ ?_ _)
    (SevSeg.linesOn_select hc digit k b hb)
  intro e he
  exact SevSeg.harmless_after_select hc s DecPlace digit t neg e (List.mem_of_mem_take he)

theorem SevSeg.linesOn_loop {self : SevSeg} (hc : self.Configured) {s : Symbols}
    (hs : s.Valid) (DecPlace n : Nat) (t : Int) (neg : Bool) (k : Nat) (b : Board)
    (hb : self.LinesOff b) :
    self.linesOn (b.run ((SevSeg.DisplayNumber.loop self s DecPlace n t neg).flatten.take k))
      ≤ 1 := by
  induction n generalizing t neg k b with
  | zero =>
    simp [SevSeg.DisplayNumber.loop, SevSeg.linesOn_of_lines_off hc.digit_levels b hb]
  | succ n ih =>
    simp only [SevSeg.DisplayNumber.loop, List.flatten_cons, List.take_append_eq_append_take,
      Board.run_append]
    rcases Nat.lt_or_ge k
      (SevSeg.DisplayNumber.body self s DecPlace (n + 1) t neg).1.length with hk | hk
    · have h0 : k - (SevSeg.DisplayNumber.body self s DecPlace (n + 1) t neg).1.length = 0 := by
        omega
      rw [h0, List.take_zero, Board.run_nil]
      exact SevSeg.linesOn_body hc s DecPlace (n + 1) t neg k b hb
    · rw [List.take_of_length_le hk]
      exact ih _ _ _ _ (SevSeg.off_after_body hc hs DecPlace (n + 1) t neg b).1

/-- C8. For every value, every `DecPlace` and every digit count from 1 to 4
with pairwise distinct pins: if all four digit-select lines are off when
`DisplayNumber` is entered, then after every one of its primitive calls (the
first `k` calls, for every `k`) at most one of the lines `digit1..digit4` is at
`DigitOn`. -/
theorem displayNumber_one_line_on (self : SevSeg) (s : Symbols) (v : Int) (DecPlace : Nat)
    (b : Board) (k : Nat) (hc : self.Configured) (hs : s.Valid)
    (hb : self.LinesOff b) :
    self.linesOn (b.run ((self.DisplayNumber s v DecPlace).take k)) ≤ 1 :=
  SevSeg.linesOn_loop hc hs DecPlace _ _ _ k b hb

/-- C8 on the common anode example display, after the first call of
`DisplayNumber(1022, 2)`, which turns on the line of the rightmost position. -/
theorem displayNumber_one_line_on_witness :
    exampleAnodeDisplay.linesOn (exampleAnodeBoard.run
      ((exampleAnodeDisplay.DisplayNumber exampleSymbols 1022 2).take 1)) ≤ 1 :=
  displayNumber_one_line_on exampleAnodeDisplay exampleSymbols 1022 2 exampleAnodeBoard 1
    (by decide) (by decide) (by decide)

/-! ## The segment patterns -/

/-- C9. Starting from all eight segment lines off, `lightNumber(8)` leaves
exactly the segments A, B, C, D, E, F, G energized, `lightNumber(1)` exactly
B and C, `lightNumber(BLANK)` none and `lightNumber(DASH)` exactly G; in all
four cases the decimal point stays off. -/
theorem lightNumber_patterns (self : SevSeg) (s : Symbols) (b : Board)
    (hc : self.Configured) (hs : s.Valid)
    (hb : self.Blank b) :
    (self.segments (b.run (self.lightNumber s 8)) =
          [true, true, true, true, true, true, true] ∧
        self.point (b.run (self.lightNumber s 8)) = false) ∧
      (self.segments (b.run (self.lightNumber s 1)) =
          [false, true, true, false, false, false, false] ∧
        self.point (b.run (self.lightNumber s 1)) = false) ∧
      (self.segments (b.run (self.lightNumber s (toByte s.BLANK))) =
          [false, false, false, false, false, false, false] ∧
        self.point (b.run (self.lightNumber s (toByte s.BLANK))) = false) ∧
      (self.segments (b.run (self.lightNumber s (toByte s.DASH))) =
          [false, false, false, false, false, false, true] ∧
        self.point (b.run (self.lightNumber s (toByte s.DASH))) = false) := by
  have hnd := hc.2
  have hnd2 := List.nodup_reverse.mpr hnd
  simp [SevSeg.pins, SevSeg.digitLines, SevSeg.glyphPins] at hnd hnd2
  have hl := hc.seg_levels
  simp [SevSeg.Blank, SevSeg.glyphPins] at hb
  obtain ⟨⟨hb1, hb2⟩, ⟨hd1, hd2⟩, _, hbd, _, _⟩ := hs
  rw [toByte_natCast _ hb2, toByte_natCast _ hd2, SevSeg.lightNumber_of_ge _ _ _ hb1,
    SevSeg.lightNumber_of_ge _ _ _ hd1, if_pos rfl, if_neg (Ne.symm hbd), if_pos rfl]
  refine ⟨?_, ?_, ?_, ?_⟩ <;>
    simp [SevSeg.lightNumber, SevSeg.segments, SevSeg.point, SevSeg.glyphPins, hnd, hnd2, hb,
      hl, hl.symm]

/-- C9 on the example display right after `Begin`. -/
theorem lightNumber_patterns_witness :
    (exampleDisplay.segments (exampleBoard.run (exampleDisplay.lightNumber exampleSymbols 8)) =
          [true, true, true, true, true, true, true] ∧
        exampleDisplay.point (exampleBoard.run (exampleDisplay.lightNumber exampleSymbols 8)) =
          false) ∧
      (exampleDisplay.segments (exampleBoard.run (exampleDisplay.lightNumber exampleSymbols 1)) =
          [false, true, true, false, false, false, false] ∧
        exampleDisplay.point (exampleBoard.run (exampleDisplay.lightNumber exampleSymbols 1)) =
          false) ∧
      (exampleDisplay.segments (exampleBoard.run
          (exampleDisplay.lightNumber exampleSymbols (toByte exampleSymbols.BLANK))) =
          [false, false, false, false, false, false, false] ∧
        exampleDisplay.point (exampleBoard.run
          (exampleDisplay.lightNumber exampleSymbols (toByte exampleSymbols.BLANK))) = false) ∧
      (exampleDisplay.segments (exampleBoard.run
          (exampleDisplay.lightNumber exampleSymbols (toByte exampleSymbols.DASH))) =
          [false, false, false, false, false, false, true] ∧
        exampleDisplay.point (exampleBoard.run
          (exampleDisplay.lightNumber exampleSymbols (toByte exampleSymbols.DASH))) = false) :=
  lightNumber_patterns exampleDisplay exampleSymbols exampleBoard (by decide) (by decide)
    (by decide)

/-! ## Turning the display off -/

/-- C10. For every value, every `DecPlace`, every digit count from 1 to 4 and
every initial board, `DisplayNumber` makes one pass per position, after each
pass (before the next position is selected) all four digit-select lines are at
`DigitOff` and all eight segment lines at `SegOff`, and so they are when
`DisplayNumber` returns. -/
theorem displayNumber_turns_off (self : SevSeg) (s : Symbols) (v : Int) (DecPlace : Nat)
    (b : Board) (hc : self.Configured) (hs : s.Valid) (hn : 1 ≤ self.numberOfDigits) :
    (SevSeg.DisplayNumber.passes self s v DecPlace).length = self.numberOfDigits ∧
      (∀ k, 1 ≤ k → k ≤ self.numberOfDigits →
        self.Off (b.run ((SevSeg.DisplayNumber.passes self s v DecPlace).take k).flatten)) ∧
      self.Off (b.run (self.DisplayNumber s v DecPlace)) := by
  have hlen : (SevSeg.DisplayNumber.passes self s v DecPlace).length = self.numberOfDigits :=
    self.length_loop s DecPlace _ _ _
  have hall : ∀ k, 1 ≤ k → k ≤ self.numberOfDigits →
      self.Off (b.run ((SevSeg.DisplayNumber.passes self s v DecPlace).take k).flatten) :=
    fun k hk1 hkn => SevSeg.off_after_passes hc hs DecPlace _ _ _ b k hk1 hkn
  refine ⟨hlen, hall, ?_⟩
  have h := hall self.numberOfDigits hn (Nat.le_refl _)
  rw [← hlen, List.take_length] at h
  exact h

/-- C10 on the example display for `DisplayNumber(1022, 2)`, entered with the
board in its power-on state. -/
theorem displayNumber_turns_off_witness :
    (SevSeg.DisplayNumber.passes exampleDisplay exampleSymbols 1022 2).length =
        exampleDisplay.numberOfDigits ∧
      (∀ k, 1 ≤ k → k ≤ exampleDisplay.numberOfDigits →
        exampleDisplay.Off (powerOn.run
          ((SevSeg.DisplayNumber.passes exampleDisplay exampleSymbols 1022 2).take k).flatten)) ∧
      exampleDisplay.Off (powerOn.run (exampleDisplay.DisplayNumber exampleSymbols 1022 2)) :=
  displayNumber_turns_off exampleDisplay exampleSymbols 1022 2 powerOn (by decide) (by decide)
    (by decide)

/-! ## Leading zeros -/

/-- C11, as stated, fails: `DisplayNumber(7, 1)` on the four-digit example
display shows the digit 7 in the rightmost position and none of the segments
A..G in the three positions to its left, but in the leftmost of them the
decimal-point segment is lit (line 178 services the decimal point in every
pass, whether or not the pass drew a digit). -/
theorem displayNumber_7_1_lights_point_left :
    (exampleDisplay.frame exampleSymbols 7 1 exampleBoard).map
        (fun bd => (exampleDisplay.segments bd, exampleDisplay.point bd)) =
      [([false, false, false, false, false, false, false], true),
       ([false, false, false, false, false, false, false], false),
       ([false, false, false, false, false, false, false], false),
       ([true, true, true, false, false, false, false], false)] := by
  decide

/-- C11, amended. On a four-digit display started from the blank state, for
every `v` from 1 to 9999 with `k` decimal digits a refresh shows the `k`
digits of `v` in the `k` rightmost positions, most significant first (a zero
inside the number is drawn as the pattern of 0), and none of the segments A..G
in each of the `4 - k` positions to their left; for every `v` from -999 to -1
the same holds for `|v|`, except that the position immediately left of the
digits shows the dash. The decimal point is lit in a position exactly if
`DecPlace` is the index of that position, whether or not the position shows a
digit. -/
theorem displayNumber_right_aligned (self : SevSeg) (s : Symbols) (v : Int) (DecPlace : Nat)
    (b : Board) (hc : self.Configured) (h4 : self.numberOfDigits = 4) (hs : s.Valid)
    (hb : self.Blank b) (hv : (1 ≤ v ∧ v ≤ 9999) ∨ (-999 ≤ v ∧ v ≤ -1)) :
    (self.frame s v DecPlace b).map self.segments =
        (if v < 0 then
            List.replicate (3 - (Nat.digits 10 v.natAbs).length) blankGlyph ++ [dashGlyph]
          else List.replicate (4 - (Nat.digits 10 v.natAbs).length) blankGlyph) ++
          (Nat.digits 10 v.natAbs).reverse.map glyph ∧
      (Nat.digits 10 v.natAbs).length + (if v < 0 then 1 else 0) ≤ 4 ∧
      (self.frame s v DecPlace b).map self.point =
        [decide (DecPlace = 1), decide (DecPlace = 2), decide (DecPlace = 3),
          decide (DecPlace = 4)] := by
  have hpoint := SevSeg.frame_point hc hs v DecPlace b hb
  rw [h4] at hpoint
  have hframe := SevSeg.frame_map hc hs DecPlace self.segments (fun _ t neg => shown t neg)
    self.Blank (fun _ h => h.2)
    (fun digit t neg b hb => SevSeg.segments_draw hc hs DecPlace digit t neg b hb) v b hb
  rw [h4] at hframe
  refine ⟨?_, ?_, by simpa [List.range'] using hpoint⟩
  · rcases hv with ⟨hv1, hv2⟩ | ⟨hv1, hv2⟩
    · rw [start_of_nonneg v (by omega)] at hframe
      simp only [shown_loopVars_four] at hframe
      rw [hframe, if_neg (by omega : ¬ v < 0)]
      generalize hN : v.natAbs = N
      have hN1 : 0 < N := by omega
      have hN2 : N < 10000 := by omega
      rw [digits_lt_10000 N hN1 hN2]
      by_cases h10 : N < 10
      · have z1 : ¬ 0 < N / 10 := by omega
        have z2 : ¬ 0 < N / 100 := by omega
        have z3 : ¬ 0 < N / 1000 := by omega
        simp [h10, hN1, z1, z2, z3, List.replicate]
      by_cases h100 : N < 100
      · have p1 : 0 < N / 10 := by omega
        have z2 : ¬ 0 < N / 100 := by omega
        have z3 : ¬ 0 < N / 1000 := by omega
        simp [h10, h100, hN1, p1, z2, z3, List.replicate]
      by_cases h1000 : N < 1000
      · have p1 : 0 < N / 10 := by omega
        have p2 : 0 < N / 100 := by omega
        have z3 : ¬ 0 < N / 1000 := by omega
        simp [h10, h100, h1000, hN1, p1, p2, z3, List.replicate]
      · have p1 : 0 < N / 10 := by omega
        have p2 : 0 < N / 100 := by omega
        have p3 : 0 < N / 1000 := by omega
        simp [h10, h100, h1000, hN1, p1, p2, p3, List.replicate]
    · rw [start_of_neg v (by omega) (by omega)] at hframe
      simp only [shown_loopVars_four] at hframe
      rw [hframe, if_pos (by omega : v < 0)]
      generalize hN : v.natAbs = N
      have hN1 : 0 < N := by omega
      have hN2 : N < 1000 := by omega
      have z3 : ¬ 0 < N / 1000 := by omega
      rw [digits_lt_10000 N hN1 (by omega)]
      by_cases h10 : N < 10
      · have z1 : ¬ 0 < N / 10 := by omega
        have z2 : ¬ 0 < N / 100 := by omega
        simp [h10, hN1, z1, z2, z3, List.replicate]
      by_cases h100 : N < 100
      · have p1 : 0 < N / 10 := by omega
        have z2 : ¬ 0 < N / 100 := by omega
        simp [h10, h100, hN1, p1, z2, z3, List.replicate]
      · have p1 : 0 < N / 10 := by omega
        have p2 : 0 < N / 100 := by omega
        simp [h10, h100, hN2, hN1, p1, p2, z3, List.replicate]
  · rcases hv with ⟨hv1, hv2⟩ | ⟨hv1, hv2⟩
    · rw [if_neg (by omega : ¬ v < 0)]
      generalize hN : v.natAbs = N
      have hN1 : 0 < N := by omega
      have hN2 : N < 10000 := by omega
      rw [digits_lt_10000 N hN1 hN2]
      split_ifs <;> simp
    · rw [if_pos (by omega : v < 0)]
      generalize hN : v.natAbs = N
      have hN1 : 0 < N := by omega
      have hN2 : N < 1000 := by omega
      rw [digits_lt_10000 N hN1 (by omega)]
      split_ifs <;> simp

/-- C11, amended, on the example display for `DisplayNumber(1022, 2)`, which
shows 1, 0, 2, 2 with the point in the second position. -/
theorem displayNumber_right_aligned_witness :
    (exampleDisplay.frame exampleSymbols 1022 2 exampleBoard).map exampleDisplay.segments =
        (if (1022 : Int) < 0 then
            List.replicate (3 - (Nat.digits 10 (1022 : Int).natAbs).length) blankGlyph ++
              [dashGlyph]
          else List.replicate (4 - (Nat.digits 10 (1022 : Int).natAbs).length) blankGlyph) ++
          (Nat.digits 10 (1022 : Int).natAbs).reverse.map glyph ∧
      (Nat.digits 10 (1022 : Int).natAbs).length + (if (1022 : Int) < 0 then 1 else 0) ≤ 4 ∧
      (exampleDisplay.frame exampleSymbols 1022 2 exampleBoard).map exampleDisplay.point =
        [decide (2 = 1), decide (2 = 2), decide (2 = 3), decide (2 = 4)] :=
  displayNumber_right_aligned exampleDisplay exampleSymbols 1022 2 exampleBoard (by decide) rfl
    (by decide) (by decide) (by decide)

/-! ## The passes of the loop -/

theorem delays_append (es fs : List Event) : delays (es ++ fs) = delays es ++ delays fs := by
  induction es with
  | nil => rfl
  | cons e es ih => cases e <;> simp [delays, ih]

theorem delays_of_quiet (es : List Event)
    (h : ∀ e ∈ es, ∀ us, e ≠ Event.delayMicroseconds us) : delays es = [] := by
  induction es with
  | nil => rfl
  | cons e es ih =>
    have ih2 := ih (fun e' he' => h e' (List.mem_cons_of_mem _ he'))
    cases e with
    | pinMode p m => simpa [delays] using ih2
    | digitalWrite p v => simpa [delays] using ih2
    | delayMicroseconds us => exact absurd rfl (h _ (List.mem_cons_self _ _) us)

/-- A pass of the loop makes exactly one delay, of 2000 microseconds. -/
theorem SevSeg.delays_body (self : SevSeg) (s : Symbols) (DecPlace digit : Nat) (t : Int)
    (neg : Bool) :
    delays (SevSeg.DisplayNumber.body self s DecPlace digit t neg).1 = [2000] := by
  rw [self.body_calls, delays_append, delays_of_quiet _ (self.draw_quiet s DecPlace digit t neg)]
  simp [delays, delays_of_quiet _ (self.turnOff_quiet s)]

/-- The passes of the loop are the loop body at the loop variables `loopVars`. -/
theorem SevSeg.loop_eq_map (self : SevSeg) (s : Symbols) (DecPlace n : Nat) (t : Int)
    (neg : Bool) :
    SevSeg.DisplayNumber.loop self s DecPlace n t neg =
      (loopVars n t neg).map
        (fun x => (SevSeg.DisplayNumber.body self s DecPlace x.1 x.2.1 x.2.2).1) := by
  induction n generalizing t neg with
  | zero => rfl
  | succ n ih =>
    simp only [SevSeg.DisplayNumber.loop, loopVars, List.map_cons, ih, self.body_toDisplay,
      self.body_negative]

theorem SevSeg.delays_loop (self : SevSeg) (s : Symbols) (DecPlace n : Nat) (t : Int)
    (neg : Bool) :
    delays (SevSeg.DisplayNumber.loop self s DecPlace n t neg).flatten =
      List.replicate n 2000 := by
  induction n generalizing t neg with
  | zero => rfl
  | succ n ih =>
    simp only [SevSeg.DisplayNumber.loop, List.flatten_cons, delays_append, self.delays_body, ih,
      List.replicate_succ, List.singleton_append]

/-- C12. For every value, every `DecPlace` and every digit count `n`,
`DisplayNumber` (a total function: it always returns) makes exactly `n` passes
through its loop; the passes are the loop body at the positions
`n, n-1, ..., 1` in that order, each position once; every pass makes exactly
one delay, of 2000 microseconds, so one refresh makes `n` delays of 2000
microseconds, `2000 * n` microseconds in all (8000 for four digits). -/
theorem displayNumber_passes (self : SevSeg) (s : Symbols) (v : Int) (DecPlace : Nat) :
    (SevSeg.DisplayNumber.passes self s v DecPlace).length = self.numberOfDigits ∧
      SevSeg.DisplayNumber.passes self s v DecPlace =
        (loopVars self.numberOfDigits (SevSeg.DisplayNumber.start v).1
          (SevSeg.DisplayNumber.start v).2).map
            (fun x => (SevSeg.DisplayNumber.body self s DecPlace x.1 x.2.1 x.2.2).1) ∧
      (loopVars self.numberOfDigits (SevSeg.DisplayNumber.start v).1
          (SevSeg.DisplayNumber.start v).2).map (fun x => x.1) =
        (List.range' 1 self.numberOfDigits).reverse ∧
      (∀ pass ∈ SevSeg.DisplayNumber.passes self s v DecPlace, delays pass = [2000]) ∧
      delays (self.DisplayNumber s v DecPlace) = List.replicate self.numberOfDigits 2000 ∧
      (delays (self.DisplayNumber s v DecPlace)).sum = 2000 * self.numberOfDigits ∧
      (self.numberOfDigits = 4 → (delays (self.DisplayNumber s v DecPlace)).sum = 8000) := by
  have hd : delays (self.DisplayNumber s v DecPlace) =
      List.replicate self.numberOfDigits 2000 := self.delays_loop s DecPlace _ _ _
  have hsum : (delays (self.DisplayNumber s v DecPlace)).sum = 2000 * self.numberOfDigits := by
    rw [hd, List.sum_replicate, smul_eq_mul, Nat.mul_comm]
  refine ⟨self.length_loop s DecPlace _ _ _, self.loop_eq_map s DecPlace _ _ _, ?_, ?_, hd,
    hsum, ?_⟩
  · rw [← loopVars_positions self.numberOfDigits (SevSeg.DisplayNumber.start v).1
      (SevSeg.DisplayNumber.start v).2, List.reverse_reverse]
  · intro pass hpass
    have h := self.loop_eq_map s DecPlace self.numberOfDigits (SevSeg.DisplayNumber.start v).1
      (SevSeg.DisplayNumber.start v).2
    unfold SevSeg.DisplayNumber.passes at hpass
    rw [h] at hpass
    obtain ⟨x, _, rfl⟩ := List.mem_map.mp hpass
    exact self.delays_body s DecPlace _ _ _
  · intro h4
    rw [hsum, h4]

/-- C12 on the four-digit example display for `DisplayNumber(1022, 2)`: four
passes, four delays of 2000 microseconds, 8000 microseconds in all. -/
theorem displayNumber_passes_witness :
    (SevSeg.DisplayNumber.passes exampleDisplay exampleSymbols 1022 2).length = 4 ∧
      delays (exampleDisplay.DisplayNumber exampleSymbols 1022 2) = [2000, 2000, 2000, 2000] ∧
      (delays (exampleDisplay.DisplayNumber exampleSymbols 1022 2)).sum = 8000 :=
  ⟨(displayNumber_passes exampleDisplay exampleSymbols 1022 2).1,
    (displayNumber_passes exampleDisplay exampleSymbols 1022 2).2.2.2.2.1,
    (displayNumber_passes exampleDisplay exampleSymbols 1022 2).2.2.2.2.2.2 rfl⟩

/-! ## The levels of `Begin` -/

/-- C13. For every digit count up to four and every pin assignment `Begin`
returns in both polarity modes, and the four levels of the object it returns
are inverse pairs: `DigitOff` is the inverse of `DigitOn` and `SegOff` the
inverse of `SegOn` in each mode; each of the four levels in mode
`COMMON_ANODE` is the inverse of the same level in mode `COMMON_CATHODE`; the
off levels are `DigitOff = LOW`, `SegOff = HIGH` for common anode and
`DigitOff = HIGH`, `SegOff = LOW` for common cathode. -/
theorem begin_levels_inverse
    (numOfDigits dig1 dig2 dig3 dig4 segA segB segC segD segE segF segG segDP : Nat)
    (hn : numOfDigits ≤ 4) :
    ∃ anode cathode ea ec,
      SevSeg.Begin COMMON_ANODE numOfDigits dig1 dig2 dig3 dig4 segA segB segC segD segE segF
        segG segDP = some (anode, ea) ∧
      SevSeg.Begin COMMON_CATHODE numOfDigits dig1 dig2 dig3 dig4 segA segB segC segD segE segF
        segG segDP = some (cathode, ec) ∧
      (anode.DigitOff = anode.DigitOn.inverse ∧ anode.SegOff = anode.SegOn.inverse) ∧
      (cathode.DigitOff = cathode.DigitOn.inverse ∧ cathode.SegOff = cathode.SegOn.inverse) ∧
      (anode.DigitOn = cathode.DigitOn.inverse ∧ anode.DigitOff = cathode.DigitOff.inverse ∧
        anode.SegOn = cathode.SegOn.inverse ∧ anode.SegOff = cathode.SegOff.inverse) ∧
      (anode.DigitOff = Level.LOW ∧ anode.SegOff = Level.HIGH) ∧
      (cathode.DigitOff = Level.HIGH ∧ cathode.SegOff = Level.LOW) := by
  refine ⟨_, _, _, _,
    SevSeg.Begin_eq_some COMMON_ANODE numOfDigits dig1 dig2 dig3 dig4 segA segB segC segD segE
      segF segG segDP hn,
    SevSeg.Begin_eq_some COMMON_CATHODE numOfDigits dig1 dig2 dig3 dig4 segA segB segC segD
      segE segF segG segDP hn, ?_⟩
  exact ⟨⟨rfl, rfl⟩, ⟨rfl, rfl⟩, ⟨rfl, rfl, rfl, rfl⟩, ⟨rfl, rfl⟩, rfl, rfl⟩

/-- C13 for a four-digit display on the pins 2-13. -/
theorem begin_levels_inverse_witness :
    ∃ anode cathode ea ec,
      SevSeg.Begin COMMON_ANODE 4 2 3 4 5 6 7 8 9 10 11 12 13 = some (anode, ea) ∧
      SevSeg.Begin COMMON_CATHODE 4 2 3 4 5 6 7 8 9 10 11 12 13 = some (cathode, ec) ∧
      (anode.DigitOff = anode.DigitOn.inverse ∧ anode.SegOff = anode.SegOn.inverse) ∧
      (cathode.DigitOff = cathode.DigitOn.inverse ∧ cathode.SegOff = cathode.SegOn.inverse) ∧
      (anode.DigitOn = cathode.DigitOn.inverse ∧ anode.DigitOff = cathode.DigitOff.inverse ∧
        anode.SegOn = cathode.SegOn.inverse ∧ anode.SegOff = cathode.SegOff.inverse) ∧
      (anode.DigitOff = Level.LOW ∧ anode.SegOff = Level.HIGH) ∧
      (cathode.DigitOff = Level.HIGH ∧ cathode.SegOff = Level.LOW) :=
  begin_levels_inverse 4 2 3 4 5 6 7 8 9 10 11 12 13 (by decide)

/-! ## The number zero -/

theorem SevSeg.select_writes (self : SevSeg) (digit : Nat) :
    ∀ e ∈ SevSeg.DisplayNumber.select self digit,
      ∃ p ∈ self.digitLines, e = Event.digitalWrite p self.DigitOn := by
  unfold SevSeg.DisplayNumber.select
  split <;> simp [SevSeg.digitLines]

/-- No digit-select pin is a segment pin. -/
theorem SevSeg.Configured.lines_not_segments {self : SevSeg} (hc : self.Configured) (p : Nat)
    (hp : p ∈ self.digitLines) : p ∉ self.glyphPins ++ [self.segmentDP] := by
  have h : (self.digitLines ++ (self.glyphPins ++ [self.segmentDP])).Nodup := by
    have := hc.2
    rwa [SevSeg.pins, List.append_assoc] at this
  exact fun hq => (List.nodup_append.mp h).2.2 hp hq

/-- The calls that end a pass write `SegOff` to the segment pins and `DigitOff`
to the digit-select pins. -/
theorem SevSeg.turnOff_calls (self : SevSeg) {s : Symbols} (hs : s.Valid) :
    SevSeg.DisplayNumber.turnOff self s =
      [Event.digitalWrite self.segmentA self.SegOff,
       Event.digitalWrite self.segmentB self.SegOff,
       Event.digitalWrite self.segmentC self.SegOff,
       Event.digitalWrite self.segmentD self.SegOff,
       Event.digitalWrite self.segmentE self.SegOff,
       Event.digitalWrite self.segmentF self.SegOff,
       Event.digitalWrite self.segmentG self.SegOff,
       Event.digitalWrite self.segmentDP self.SegOff,
       Event.digitalWrite self.digit1 self.DigitOff,
       Event.digitalWrite self.digit2 self.DigitOff,
       Event.digitalWrite self.digit3 self.DigitOff,
       Event.digitalWrite self.digit4 self.DigitOff] := by
  obtain ⟨⟨hb1, hb2⟩, _⟩ := hs
  unfold SevSeg.DisplayNumber.turnOff
  rw [toByte_natCast _ hb2, SevSeg.lightNumber_of_ge _ _ _ hb1, if_pos rfl]
  rfl

/-- For the number 0 without decimal point a pass selects its position, waits
and turns the display off: it draws nothing. -/
theorem SevSeg.body_zero (self : SevSeg) (s : Symbols) (digit : Nat) :
    SevSeg.DisplayNumber.body self s 0 (digit + 1) 0 false =
      (SevSeg.DisplayNumber.select self (digit + 1) ++
        Event.delayMicroseconds 2000 :: SevSeg.DisplayNumber.turnOff self s, 0, false) := by
  simp [SevSeg.DisplayNumber.body, SevSeg.DisplayNumber.number, SevSeg.DisplayNumber.point]

/-- No call of `DisplayNumber(0, 0)` writes `SegOn` to a segment pin. -/
theorem SevSeg.loop_zero_no_segOn {self : SevSeg} (hc : self.Configured) {s : Symbols}
    (hs : s.Valid) (n : Nat) :
    ∀ e ∈ (SevSeg.DisplayNumber.loop self s 0 n 0 false).flatten,
      ∀ pin ∈ self.glyphPins ++ [self.segmentDP], e ≠ Event.digitalWrite pin self.SegOn := by
  induction n with
  | zero => simp [SevSeg.DisplayNumber.loop]
  | succ n ih =>
    intro e he pin hpin hev
    simp only [SevSeg.DisplayNumber.loop, self.body_zero, List.flatten_cons,
      List.mem_append, List.mem_cons] at he
    rcases he with (he | he | he) | he
    · obtain ⟨p, hp, hpe⟩ := self.select_writes _ e he
      rw [hev] at hpe
      injection hpe with h1 _
      exact hc.lines_not_segments p hp (h1 ▸ hpin)
    · rw [hev] at he
      cases he
    · rw [self.turnOff_calls hs, hev] at he
      have hl := hc.seg_levels
      simp only [List.mem_cons, Event.digitalWrite.injEq, hl, and_false, false_or,
        List.mem_nil_iff, or_false] at he
      have hlines : pin ∈ self.digitLines := by
        simp only [SevSeg.digitLines, List.mem_cons, List.mem_nil_iff, or_false]
        rcases he with h | h | h | h
        · exact Or.inl h.1
        · exact Or.inr (Or.inl h.1)
        · exact Or.inr (Or.inr (Or.inl h.1))
        · exact Or.inr (Or.inr (Or.inr h.1))
      exact hc.lines_not_segments pin hlines hpin
    · exact ih e he pin hpin hev

/-- Calls that never write `SegOn` to a segment pin keep a blank display blank. -/
theorem SevSeg.blank_run_of_no_segOn {self : SevSeg} (hl : self.SegOn ≠ self.SegOff)
    (es : List Event)
    (h : ∀ e ∈ es, ∀ pin ∈ self.glyphPins ++ [self.segmentDP],
      e ≠ Event.digitalWrite pin self.SegOn)
    (b : Board) (hb : self.Blank b) : self.Blank (b.run es) := by
  induction es generalizing b with
  | nil => exact hb
  | cons e es ih =>
    rw [Board.run_cons]
    apply ih (fun e' he' => h e' (List.mem_cons_of_mem _ he'))
    intro q hq
    cases e with
    | pinMode p m => exact hb q hq
    | delayMicroseconds us => exact hb q hq
    | digitalWrite p v =>
      rw [Board.step_write_level]
      by_cases hqp : q = p
      · rw [if_pos hqp]
        have hne : v ≠ self.SegOn := by
          intro hv
          exact h _ (List.mem_cons_self _ _) q hq (by rw [hqp, hv])
        revert hne hl
        cases v <;> cases self.SegOn <;> cases self.SegOff <;> simp
      · rw [if_neg hqp]
        exact hb q hq

theorem loopVars_zero (n : Nat) :
    (loopVars n 0 false).map (fun x => (shown x.2.1 x.2.2, decide (0 = x.1))) =
      List.replicate n (blankGlyph, false) := by
  induction n with
  | zero => rfl
  | succ n ih =>
    have h0 : (0 : Int).tdiv 10 = 0 := by decide
    simp only [loopVars, List.map_cons, h0, List.replicate_succ]
    rw [show (if (0 : Int) > 0 then false else false) = false from rfl, ih]
    simp [shown]

/-- C14. For the value 0 and `DecPlace` 0, on a display set up by `Begin` (any
digit count) and started from the blank state, no call of `DisplayNumber`
writes `SegOn` to a segment line, all eight segment lines stay at `SegOff`
after every one of its calls, and during the dwell of every position,
the rightmost included, none of the segments A..G and no decimal point is
lit: no 0 is shown. -/
theorem displayNumber_zero_blank (self : SevSeg) (s : Symbols) (b : Board)
    (hc : self.Configured) (hs : s.Valid) (hb : self.Blank b) :
    (∀ e ∈ self.DisplayNumber s 0 0, ∀ pin ∈ self.glyphPins ++ [self.segmentDP],
        e ≠ Event.digitalWrite pin self.SegOn) ∧
      (∀ k, self.Blank (b.run ((self.DisplayNumber s 0 0).take k))) ∧
      (self.frame s 0 0 b).map (fun bd => (self.segments bd, self.point bd)) =
        List.replicate self.numberOfDigits (blankGlyph, false) := by
  have hev : ∀ e ∈ self.DisplayNumber s 0 0, ∀ pin ∈ self.glyphPins ++ [self.segmentDP],
      e ≠ Event.digitalWrite pin self.SegOn := SevSeg.loop_zero_no_segOn hc hs _
  refine ⟨hev, ?_, ?_⟩
  · intro k
    exact SevSeg.blank_run_of_no_segOn hc.seg_levels _
      (fun e he => hev e (List.mem_of_mem_take he)) b hb
  · rw [SevSeg.frame_map hc hs 0 (fun bd => (self.segments bd, self.point bd))
      (fun digit t neg => (shown t neg, decide (0 = digit))) self.Blank (fun _ h => h.2)
      (fun digit t neg b hb => by
        show (self.segments _, self.point _) = _
        rw [SevSeg.segments_draw hc hs 0 digit t neg b hb,
          SevSeg.point_draw hc hs 0 digit t neg b hb]) 0 b hb]
    have hstart : SevSeg.DisplayNumber.start 0 = (0, false) := rfl
    rw [hstart, loopVars_zero, List.reverse_replicate]

/-- C14 on the example display right after `Begin`. -/
theorem displayNumber_zero_blank_witness :
    (∀ e ∈ exampleDisplay.DisplayNumber exampleSymbols 0 0,
        ∀ pin ∈ exampleDisplay.glyphPins ++ [exampleDisplay.segmentDP],
          e ≠ Event.digitalWrite pin exampleDisplay.SegOn) ∧
      (∀ k, exampleDisplay.Blank
        (exampleBoard.run ((exampleDisplay.DisplayNumber exampleSymbols 0 0).take k))) ∧
      (exampleDisplay.frame exampleSymbols 0 0 exampleBoard).map
          (fun bd => (exampleDisplay.segments bd, exampleDisplay.point bd)) =
        List.replicate exampleDisplay.numberOfDigits (blankGlyph, false) :=
  displayNumber_zero_blank exampleDisplay exampleSymbols exampleBoard (by decide) (by decide)
    (by decide)

/-! ## The segment lookup -/

/-- What `lightNumber` does for the sign. -/
theorem SevSeg.lightNumber_dash (self : SevSeg) {s : Symbols} (hs : s.Valid) :
    self.lightNumber s s.DASH = [Event.digitalWrite self.segmentG self.SegOn] := by
  obtain ⟨_, ⟨hd1, _⟩, _, hbd, _, _⟩ := hs
  rw [SevSeg.lightNumber_of_ge _ _ _ hd1, if_neg (Ne.symm hbd), if_pos rfl]

/-- What `lightNumber` does for the decimal point. -/
theorem SevSeg.lightNumber_dp (self : SevSeg) {s : Symbols} (hs : s.Valid) :
    self.lightNumber s s.DP = [Event.digitalWrite self.segmentDP self.SegOn] := by
  obtain ⟨_, _, ⟨hp1, _⟩, _, hbp, hdp⟩ := hs
  rw [SevSeg.lightNumber_of_ge _ _ _ hp1, if_neg (Ne.symm hbp), if_neg (Ne.symm hdp),
    if_pos rfl]

/-- What `lightNumber` does for the blank. -/
theorem SevSeg.lightNumber_blank (self : SevSeg) {s : Symbols} (hs : s.Valid) :
    self.lightNumber s s.BLANK =
      [Event.digitalWrite self.segmentA self.SegOff,
       Event.digitalWrite self.segmentB self.SegOff,
       Event.digitalWrite self.segmentC self.SegOff,
       Event.digitalWrite self.segmentD self.SegOff,
       Event.digitalWrite self.segmentE self.SegOff,
       Event.digitalWrite self.segmentF self.SegOff,
       Event.digitalWrite self.segmentG self.SegOff,
       Event.digitalWrite self.segmentDP self.SegOff] := by
  obtain ⟨⟨hb1, _⟩, _⟩ := hs
  rw [SevSeg.lightNumber_of_ge _ _ _ hb1, if_pos rfl]

/-- On a blank display `lightNumber` draws the shape `glyph` of a digit, the
dash for `DASH` and nothing for `BLANK`, and leaves the decimal point dark. -/
theorem SevSeg.segments_lightNumber {self : SevSeg} (hc : self.Configured) {s : Symbols}
    (hs : s.Valid) (b : Board) (hb : self.Blank b) (k : Nat)
    (hk : k < 10 ∨ k = s.DASH ∨ k = s.BLANK) :
    self.segments (b.run (self.lightNumber s k)) =
        (if k < 10 then glyph k else if k = s.DASH then dashGlyph else blankGlyph) ∧
      self.point (b.run (self.lightNumber s k)) = false := by
  have hnd := hc.2
  have hnd2 := List.nodup_reverse.mpr hnd
  simp [SevSeg.pins, SevSeg.digitLines, SevSeg.glyphPins] at hnd hnd2
  have hl := hc.seg_levels
  simp [SevSeg.Blank, SevSeg.glyphPins] at hb
  have hv := hs
  obtain ⟨⟨hb1, _⟩, ⟨hd1, _⟩, _, hbd, _, _⟩ := hv
  rcases hk with hk | hk | hk
  · rw [if_pos hk]
    interval_cases k <;>
      simp [SevSeg.lightNumber, SevSeg.segments, SevSeg.point, SevSeg.glyphPins, glyph, hnd,
        hnd2, hb, hl, hl.symm]
  · subst hk
    rw [if_neg (by omega), if_pos rfl, self.lightNumber_dash hs]
    simp [SevSeg.segments, SevSeg.point, SevSeg.glyphPins, dashGlyph, hnd, hnd2, hb, hl,
      hl.symm]
  · subst hk
    rw [if_neg (by omega), if_neg hbd, self.lightNumber_blank hs]
    simp [SevSeg.segments, SevSeg.point, SevSeg.glyphPins, blankGlyph, hnd, hnd2, hb, hl,
      hl.symm]

/-- The shapes of the ten digits are pairwise different. -/
theorem glyph_injective : ∀ x < 10, ∀ y < 10, glyph x = glyph y → x = y := by
  decide

theorem glyph_ne_blankGlyph (d : Nat) (hd : d < 10) : glyph d ≠ blankGlyph := by
  interval_cases d <;> decide

/-- C15. Starting from all segments off, for any two different symbols among
the digits 0..9, `DASH` and `BLANK`, `lightNumber` leaves different sets of
energized segments A..G, and none of these symbols energizes the decimal-point
segment. -/
theorem lightNumber_injective (self : SevSeg) (s : Symbols) (b : Board) (x y : Nat)
    (hc : self.Configured) (hs : s.Valid) (hb : self.Blank b)
    (hx : x < 10 ∨ x = s.DASH ∨ x = s.BLANK) (hy : y < 10 ∨ y = s.DASH ∨ y = s.BLANK)
    (hxy : x ≠ y) :
    self.segments (b.run (self.lightNumber s x)) ≠
        self.segments (b.run (self.lightNumber s y)) ∧
      self.point (b.run (self.lightNumber s x)) = false ∧
      self.point (b.run (self.lightNumber s y)) = false := by
  have h1 := SevSeg.segments_lightNumber hc hs b hb x hx
  have h2 := SevSeg.segments_lightNumber hc hs b hb y hy
  refine ⟨?_, h1.2, h2.2⟩
  rw [h1.1, h2.1]
  have hv := hs
  obtain ⟨⟨hb1, _⟩, ⟨hd1, _⟩, _, hbd, _, _⟩ := hv
  rcases hx with hx | hx | hx <;> rcases hy with hy | hy | hy
  · rw [if_pos hx, if_pos hy]
    exact fun h => hxy (glyph_injective x hx y hy h)
  · subst hy
    rw [if_pos hx, if_neg (by omega), if_pos rfl]
    exact glyph_ne_dashGlyph x
  · subst hy
    rw [if_pos hx, if_neg (by omega), if_neg hbd]
    exact glyph_ne_blankGlyph x hx
  · subst hx
    rw [if_pos hy, if_neg (by omega), if_pos rfl]
    exact fun h => glyph_ne_dashGlyph y h.symm
  · exact absurd (hx.trans hy.symm) hxy
  · subst hx
    subst hy
    rw [if_neg (by omega), if_pos rfl, if_neg (by omega), if_neg hbd]
    exact fun h => blankGlyph_ne_dashGlyph h.symm
  · subst hx
    rw [if_pos hy, if_neg (by omega), if_neg hbd]
    exact fun h => glyph_ne_blankGlyph y hy h.symm
  · subst hx
    subst hy
    rw [if_neg (by omega), if_neg hbd, if_neg (by omega), if_pos rfl]
    exact blankGlyph_ne_dashGlyph
  · exact absurd (hx.trans hy.symm) hxy

/-- C15 on the example display for the symbols 3 and 9. -/
theorem lightNumber_injective_witness :
    exampleDisplay.segments (exampleBoard.run (exampleDisplay.lightNumber exampleSymbols 3)) ≠
        exampleDisplay.segments
          (exampleBoard.run (exampleDisplay.lightNumber exampleSymbols 9)) ∧
      exampleDisplay.point (exampleBoard.run (exampleDisplay.lightNumber exampleSymbols 3)) =
        false ∧
      exampleDisplay.point (exampleBoard.run (exampleDisplay.lightNumber exampleSymbols 9)) =
        false :=
  lightNumber_injective exampleDisplay exampleSymbols exampleBoard 3 9 (by decide) (by decide)
    (by decide) (by decide) (by decide) (by decide)

/-! ## The symbols passed to `lightNumber` -/

/-- The calls of a pass before its delay are the position select followed by
`lightNumber` for each of the symbols `drawn`. -/
theorem SevSeg.draw_eq_drawn (self : SevSeg) (s : Symbols) (DecPlace digit : Nat) (t : Int)
    (neg : Bool) :
    SevSeg.DisplayNumber.draw self s DecPlace digit t neg =
      SevSeg.DisplayNumber.select self digit ++
        ((SevSeg.DisplayNumber.drawn s DecPlace digit t neg).map (self.lightNumber s)).flatten := by
  unfold SevSeg.DisplayNumber.draw SevSeg.DisplayNumber.number SevSeg.DisplayNumber.point
    SevSeg.DisplayNumber.drawn
  split_ifs <;> simp

/-- The primitive calls of `DisplayNumber`, pass by pass, in terms of its
calls of `lightNumber`. -/
theorem SevSeg.passes_eq_drawn (self : SevSeg) (s : Symbols) (v : Int) (DecPlace : Nat) :
    SevSeg.DisplayNumber.passes self s v DecPlace =
      (loopVars self.numberOfDigits (SevSeg.DisplayNumber.start v).1
        (SevSeg.DisplayNumber.start v).2).map
          (fun x => SevSeg.DisplayNumber.select self x.1 ++
            ((SevSeg.DisplayNumber.drawn s DecPlace x.1 x.2.1 x.2.2).map
              (self.lightNumber s)).flatten ++
            Event.delayMicroseconds 2000 ::
              (self.lightNumber s (toByte s.BLANK) ++
                [Event.digitalWrite self.digit1 self.DigitOff,
                 Event.digitalWrite self.digit2 self.DigitOff,
                 Event.digitalWrite self.digit3 self.DigitOff,
                 Event.digitalWrite self.digit4 self.DigitOff])) := by
  unfold SevSeg.DisplayNumber.passes
  rw [self.loop_eq_map]
  apply List.map_congr_left
  intro x _
  rw [self.body_calls, self.draw_eq_drawn]
  rfl

/-- A value without a `case` makes `lightNumber` write nothing. -/
theorem SevSeg.lightNumber_of_no_case (self : SevSeg) (s : Symbols) (k : Nat)
    (hk : ¬ s.HasCase k) : self.lightNumber s k = [] := by
  unfold Symbols.HasCase at hk
  simp only [not_or] at hk
  obtain ⟨h1, h2, h3, h4⟩ := hk
  rw [SevSeg.lightNumber_of_ge _ _ _ (by omega), if_neg h2, if_neg h3, if_neg h4]

/-- C16. For every value and every `DecPlace`, every symbol that `DisplayNumber`
passes to `lightNumber` is one that `lightNumber` has a `case` for: a digit
0..9, `BLANK`, `DASH` or `DP`. The list `lightNumberCalls` holds the arguments
of the calls: the primitive calls of `DisplayNumber` are, pass by pass, the
position select, `lightNumber` of the symbols `drawn`, the delay,
`lightNumber(BLANK)` and the four digit writes. The fall-through of
`lightNumber`, which writes nothing, is therefore never reached. -/
theorem displayNumber_symbols_have_case (self : SevSeg) (s : Symbols) (v : Int)
    (DecPlace : Nat) (hs : s.Valid) :
    SevSeg.DisplayNumber.passes self s v DecPlace =
        (loopVars self.numberOfDigits (SevSeg.DisplayNumber.start v).1
          (SevSeg.DisplayNumber.start v).2).map
            (fun x => SevSeg.DisplayNumber.select self x.1 ++
              ((SevSeg.DisplayNumber.drawn s DecPlace x.1 x.2.1 x.2.2).map
                (self.lightNumber s)).flatten ++
              Event.delayMicroseconds 2000 ::
                (self.lightNumber s (toByte s.BLANK) ++
                  [Event.digitalWrite self.digit1 self.DigitOff,
                   Event.digitalWrite self.digit2 self.DigitOff,
                   Event.digitalWrite self.digit3 self.DigitOff,
                   Event.digitalWrite self.digit4 self.DigitOff])) ∧
      (∀ k ∈ SevSeg.DisplayNumber.lightNumberCalls self s v DecPlace, s.HasCase k) ∧
      (∀ k, ¬ s.HasCase k → self.lightNumber s k = []) := by
  refine ⟨self.passes_eq_drawn s v DecPlace, ?_, self.lightNumber_of_no_case s⟩
  obtain ⟨⟨_, hb2⟩, ⟨_, hd2⟩, ⟨_, hp2⟩, _⟩ := hs
  intro k hk
  unfold SevSeg.DisplayNumber.lightNumberCalls at hk
  simp only [List.mem_flatten, List.mem_map] at hk
  obtain ⟨l, ⟨x, _, rfl⟩, hkl⟩ := hk
  unfold SevSeg.DisplayNumber.drawn at hkl
  simp only [List.mem_append, List.mem_singleton] at hkl
  rcases hkl with (hkl | hkl) | hkl
  · split_ifs at hkl with h1 h2
    · simp only [List.mem_singleton] at hkl
      rw [hkl]
      exact Or.inl (toByte_tmod_lt _ h1)
    · simp only [List.mem_singleton] at hkl
      rw [hkl, toByte_natCast _ hd2]
      exact Or.inr (Or.inr (Or.inl rfl))
    · simp at hkl
  · split_ifs at hkl
    · simp only [List.mem_singleton] at hkl
      rw [hkl, toByte_natCast _ hp2]
      exact Or.inr (Or.inr (Or.inr rfl))
    · simp at hkl
  · rw [hkl, toByte_natCast _ hb2]
    exact Or.inr (Or.inl rfl)

/-- C16 on the example display for `DisplayNumber(-120, 2)`. -/
theorem displayNumber_symbols_have_case_witness :
    SevSeg.DisplayNumber.passes exampleDisplay exampleSymbols (-120) 2 =
        (loopVars exampleDisplay.numberOfDigits (SevSeg.DisplayNumber.start (-120)).1
          (SevSeg.DisplayNumber.start (-120)).2).map
            (fun x => SevSeg.DisplayNumber.select exampleDisplay x.1 ++
              ((SevSeg.DisplayNumber.drawn exampleSymbols 2 x.1 x.2.1 x.2.2).map
                (exampleDisplay.lightNumber exampleSymbols)).flatten ++
              Event.delayMicroseconds 2000 ::
                (exampleDisplay.lightNumber exampleSymbols (toByte exampleSymbols.BLANK) ++
                  [Event.digitalWrite exampleDisplay.digit1 exampleDisplay.DigitOff,
                   Event.digitalWrite exampleDisplay.digit2 exampleDisplay.DigitOff,
                   Event.digitalWrite exampleDisplay.digit3 exampleDisplay.DigitOff,
                   Event.digitalWrite exampleDisplay.digit4 exampleDisplay.DigitOff])) ∧
      (∀ k ∈ SevSeg.DisplayNumber.lightNumberCalls exampleDisplay exampleSymbols (-120) 2,
        exampleSymbols.HasCase k) ∧
      (∀ k, ¬ exampleSymbols.HasCase k → exampleDisplay.lightNumber exampleSymbols k = []) :=
  displayNumber_symbols_have_case exampleDisplay exampleSymbols (-120) 2 (by decide)

/-! ## What `lightNumber` leaves alone -/

/-- C17. For a digit 0..9, `DASH` or `DP` every call of `lightNumber` is a
write of `SegOn` to one of the eight segment pins; a pin that it does not
write, and so every segment it does not name, keeps its level, and so does
every digit-select line; `lightNumber(DP)` issued after a digit pattern leaves
the segments A..G as the digit pattern left them; `lightNumber(BLANK)` drives
all eight segment lines to `SegOff`, whatever the board was. -/
theorem lightNumber_additive (self : SevSeg) (s : Symbols) (b : Board) (k : Nat)
    (hc : self.Configured) (hs : s.Valid) (hk : k < 10 ∨ k = s.DASH ∨ k = s.DP) :
    (∀ e ∈ self.lightNumber s k, ∃ pin ∈ self.glyphPins ++ [self.segmentDP],
        e = Event.digitalWrite pin self.SegOn) ∧
      (∀ q, (∀ v, Event.digitalWrite q v ∉ self.lightNumber s k) →
        (b.run (self.lightNumber s k)).level q = b.level q) ∧
      (∀ q ∈ self.digitLines, (b.run (self.lightNumber s k)).level q = b.level q) ∧
      (k < 10 → self.segments (b.run (self.lightNumber s k ++ self.lightNumber s s.DP)) =
        self.segments (b.run (self.lightNumber s k))) ∧
      self.Blank (b.run (self.lightNumber s s.BLANK)) := by
  have hnd := hc.2
  have hnd2 := List.nodup_reverse.mpr hnd
  simp [SevSeg.pins, SevSeg.digitLines, SevSeg.glyphPins] at hnd hnd2
  refine ⟨?_, ?_, ?_, ?_, ?_⟩
  · rcases hk with hk | hk | hk
    · interval_cases k <;> simp [SevSeg.lightNumber, SevSeg.glyphPins]
    · subst hk
      rw [self.lightNumber_dash hs]
      simp [SevSeg.glyphPins]
    · subst hk
      rw [self.lightNumber_dp hs]
      simp [SevSeg.glyphPins]
  · intro q hq
    apply Board.level_run_of_untouched
    intro e he v hev
    exact hq v (hev ▸ he)
  · intro q hq
    exact self.level_run_of_segmentWrites _ (self.lightNumber_writes s k) q b
      (hc.lines_not_segments q hq)
  · intro _
    rw [Board.run_append, self.lightNumber_dp hs]
    simp [SevSeg.segments, SevSeg.glyphPins, hnd, hnd2]
  · rw [self.lightNumber_blank hs]
    simp [SevSeg.Blank, SevSeg.glyphPins]

/-- C17 on the example display for the digit 8. -/
theorem lightNumber_additive_witness :
    (∀ e ∈ exampleDisplay.lightNumber exampleSymbols 8,
        ∃ pin ∈ exampleDisplay.glyphPins ++ [exampleDisplay.segmentDP],
          e = Event.digitalWrite pin exampleDisplay.SegOn) ∧
      (∀ q, (∀ v, Event.digitalWrite q v ∉ exampleDisplay.lightNumber exampleSymbols 8) →
        (powerOn.run (exampleDisplay.lightNumber exampleSymbols 8)).level q =
          powerOn.level q) ∧
      (∀ q ∈ exampleDisplay.digitLines,
        (powerOn.run (exampleDisplay.lightNumber exampleSymbols 8)).level q =
          powerOn.level q) ∧
      (8 < 10 → exampleDisplay.segments (powerOn.run
          (exampleDisplay.lightNumber exampleSymbols 8 ++
            exampleDisplay.lightNumber exampleSymbols exampleSymbols.DP)) =
        exampleDisplay.segments (powerOn.run (exampleDisplay.lightNumber exampleSymbols 8))) ∧
      exampleDisplay.Blank
        (powerOn.run (exampleDisplay.lightNumber exampleSymbols exampleSymbols.BLANK)) :=
  lightNumber_additive exampleDisplay exampleSymbols powerOn 8 (by decide) (by decide)
    (by decide)
